import Mathlib

/-!
Shallow embedding of the SPH fluid simulator in `src/flbase-dist/SPH/SPH.cpp`.

Machine `float` arithmetic is modelled by exact rationals (`ℚ`); the three
kernel normalization coefficients, which the C++ code computes once from the
smoothing radius using `M_PI`, are additionally modelled exactly over `ℝ` in a
separate section (`initializeCoefficients` / the `...R` kernels), since π is
irrational.  The C library `sqrt` (and the Qt vector `length`/`normalized`
operations built on it) is passed around as an explicit function parameter
`sq : ℚ → ℚ`; every theorem that depends on concrete square-root values either
receives them as hypotheses or instantiates `sq` with a function that agrees
with the real square root on every value it is applied to.

External collaborators that are not part of the repository's source are
modelled at their interface, following the spec's §6 contracts:
* the container geometry's `intersect` is an oracle `Ray → Option Intersection`;
* `randomInteriorPoint` is a list of seed positions supplied to
  `initializeParticles`;
* the scene-graph gravity transform (`localTransformation().inverted()
  .mapVector(_gravity)`) is the `gravity` vector argument of `computeForces`.
-/

namespace SPHModel

/-! ## Definitions -/

/-- 3D vector of rationals, modelling Qt's `QVector3D` (whose components are
floats). -/
structure Vec3 where
  x : ℚ
  y : ℚ
  z : ℚ
deriving DecidableEq

namespace Vec3

def add (a b : Vec3) : Vec3 := ⟨a.x + b.x, a.y + b.y, a.z + b.z⟩

def sub (a b : Vec3) : Vec3 := ⟨a.x - b.x, a.y - b.y, a.z - b.z⟩

def neg (a : Vec3) : Vec3 := ⟨-a.x, -a.y, -a.z⟩

/-- Scalar multiplication `s * v` (Qt `QVector3D * float`). -/
def smul (s : ℚ) (a : Vec3) : Vec3 := ⟨s * a.x, s * a.y, s * a.z⟩

/-- Division of a vector by a scalar (Qt `QVector3D / float`). -/
def divQ (a : Vec3) (s : ℚ) : Vec3 := ⟨a.x / s, a.y / s, a.z / s⟩

def dot (a b : Vec3) : ℚ := a.x * b.x + a.y * b.y + a.z * b.z

def zero : Vec3 := ⟨0, 0, 0⟩

instance : Inhabited Vec3 := ⟨zero⟩

/-- `QVector3D::lengthSquared`. -/
def lengthSquared (a : Vec3) : ℚ := dot a a

/-- `QVector3D::length`, with the C `sqrt` supplied as `sq`. -/
def lengthWith (sq : ℚ → ℚ) (a : Vec3) : ℚ := sq (lengthSquared a)

/-- `QVector3D::normalized`: the zero vector normalizes to the zero vector,
otherwise the vector is divided by its length. -/
def normalizedWith (sq : ℚ → ℚ) (a : Vec3) : Vec3 :=
  if lengthSquared a = 0 then zero else divQ a (sq (lengthSquared a))

end Vec3

/-- The fixed simulation parameters of the `SPH` object: the kernel
coefficients `_coeffPoly6`/`_coeffSpiky`/`_coeffVisc` (computed once by
`initializeCoefficients`, here carried as fields since the solvers only read
the members), the smoothing radius `_smoothingRadius` and its square
`_smoothingRadius2`, the rest density `_restDensity`, the three force
coefficients `_viscosity`/`_pressure`/`_surfaceTension`, the clamp
`_maxDeltaTime` and the world-space gravity `_gravity`. -/
structure Params where
  coeffPoly6 : ℚ
  coeffSpiky : ℚ
  coeffVisc : ℚ
  smoothingRadius : ℚ
  smoothingRadius2 : ℚ
  restDensity : ℚ
  viscosity : ℚ
  pressure : ℚ
  surfaceTension : ℚ
  maxDeltaTime : ℚ
  gravity : Vec3
deriving DecidableEq

/-- One particle record, mirroring the `Particle` class used by `SPH.cpp`
(position, velocity, acceleration, mass, density, volume, pressure, owning
grid cell index). -/
structure Particle where
  position : Vec3
  velocity : Vec3
  acceleration : Vec3
  mass : ℚ
  density : ℚ
  volume : ℚ
  pressure : ℚ
  cellIndex : Nat
deriving DecidableEq

instance : Inhabited Particle :=
  ⟨⟨Vec3.zero, Vec3.zero, Vec3.zero, 0, 0, 0, 0, 0⟩⟩

/-- `SPH::densityKernel`: `coeffPoly6 * (h² - r²)³`. -/
def densityKernel (P : Params) (r2 : ℚ) : ℚ :=
  let diff := P.smoothingRadius2 - r2
  P.coeffPoly6 * diff * diff * diff

/-- `SPH::densitykernelGradient`: `-3 * coeffPoly6 * (h² - r²)²` (the
lower-case `k` follows the source). -/
def densitykernelGradient (P : Params) (r2 : ℚ) : ℚ :=
  let diff := P.smoothingRadius2 - r2; -3 * P.coeffPoly6 * diff * diff

/-- `SPH::pressureKernel`: `0` at `r = 0`, else `coeffSpiky * (h - r)² / r`. -/
def pressureKernel (P : Params) (r : ℚ) : ℚ :=
  if r = 0 then 0
  else
    let diff := P.smoothingRadius - r
    P.coeffSpiky * diff * diff / r

/-- `SPH::viscosityKernel`: `coeffVisc * (h - r)`. -/
def viscosityKernel (P : Params) (r : ℚ) : ℚ :=
  P.coeffVisc * (P.smoothingRadius - r)

/-- `SPH::pressure`: the linear equation of state `density / restDensity - 1`. -/
def pressure (P : Params) (density : ℚ) : ℚ :=
  density / P.restDensity - 1

/-- Modelled from the spec: the `Grid` class (its source is not part of
`src/`) keeps one bucket of particle indices per cell; `cellParticles` reads a
bucket, `addParticle` is an O(1) bucket insert, `removeParticle` an erase by
value. -/
structure Grid where
  buckets : List (List Nat)
deriving DecidableEq

/-- Modelled from the spec: `Grid::cellParticles(cell)` — the particle indices
currently bucketed in `cell`. -/
def Grid.cellParticles (g : Grid) (c : Nat) : List Nat :=
  g.buckets.getD c []

/-- Modelled from the spec: `Grid::addParticle(cell, i)` — bucket insert. -/
def Grid.addParticle (g : Grid) (c : Nat) (i : Nat) : Grid :=
  ⟨g.buckets.set c (g.cellParticles c ++ [i])⟩

/-- Modelled from the spec: `Grid::removeParticle(cell, i)` — erase by value. -/
def Grid.removeParticle (g : Grid) (c : Nat) (i : Nat) : Grid :=
  ⟨g.buckets.set c ((g.cellParticles c).filter (fun j => j ≠ i))⟩

/-- Modelled from the spec: the fixed geometry of the grid — minimum corner,
per-axis cell sizes (volume extent / cell count) and per-axis cell counts. -/
structure GridDims where
  minX : ℚ
  minY : ℚ
  minZ : ℚ
  sizeX : ℚ
  sizeY : ℚ
  sizeZ : ℚ
  nbX : Nat
  nbY : Nat
  nbZ : Nat
deriving DecidableEq

/-- Modelled from the spec: per-axis floor-division cell coordinate, clamped
to the valid range (points outside the grid map to the nearest boundary
cell). -/
def clampCell (nb : Nat) (i : Int) : Nat :=
  min (max i 0).toNat (nb - 1)

/-- Modelled from the spec: `Grid::cellIndex(position)` — per-axis clamped
floor division, linearized x-fastest. -/
def GridDims.cellIndex (d : GridDims) (p : Vec3) : Nat :=
  let ix := clampCell d.nbX ⌊(p.x - d.minX) / d.sizeX⌋
  let iy := clampCell d.nbY ⌊(p.y - d.minY) / d.sizeY⌋
  let iz := clampCell d.nbZ ⌊(p.z - d.minZ) / d.sizeZ⌋
  ix + d.nbX * (iy + d.nbY * iz)

/-- Modelled from the spec: the valid axis coordinates within one step of `i`,
clipped at the grid boundary. -/
def axisNeighbors (i nb : Nat) : List Nat :=
  (([(i : Int) - 1, (i : Int), (i : Int) + 1].filter
    (fun j => 0 ≤ j ∧ j < (nb : Int)))).map Int.toNat

/-- Modelled from the spec: `Grid::neighborhood(cell)` — the cell itself plus
all existing axis-aligned neighbors within one step in each dimension. -/
def GridDims.neighborhood (d : GridDims) (c : Nat) : List Nat :=
  let ix := c % d.nbX
  let iy := (c / d.nbX) % d.nbY
  let iz := c / (d.nbX * d.nbY)
  (axisNeighbors iz d.nbZ).flatMap fun jz =>
    (axisNeighbors iy d.nbY).flatMap fun jy =>
      (axisNeighbors ix d.nbX).map fun jx =>
        jx + d.nbX * (jy + d.nbY * jz)

/-- The simulation state mutated by a step: the particle store plus the
spatial grid. -/
structure SimState where
  particles : List Particle
  grid : Grid
deriving DecidableEq

/-- The flattened sequence of candidate neighbor indices the nested
`for each neighbor cell / for each particle in a neighboring cell` loops
traverse for a particle bucketed in cell `c`. -/
def candidates (d : GridDims) (g : Grid) (c : Nat) : List Nat :=
  (d.neighborhood c).flatMap g.cellParticles

/-- The body of the `computeDensities` accumulation loop: starting from
`(density, correction) = (0, 0)`, every candidate neighbor at squared distance
`r² < h²` contributes `W(r²)·mass` to the density and `W(r²)·mass/density` to
the correction. -/
def densityBody (P : Params) (ps : List Particle) (particle : Particle)
    (acc : ℚ × ℚ) (k : Nat) : ℚ × ℚ :=
  let neighbor := ps.getD k default
  let difference := Vec3.sub particle.position neighbor.position
  let r2 := difference.lengthSquared
  if r2 < P.smoothingRadius2 then
    let kernelMass := densityKernel P r2 * neighbor.mass
    (acc.1 + kernelMass, acc.2 + kernelMass / neighbor.density)
  else acc

def densitySums (P : Params) (ps : List Particle) (particle : Particle)
    (cand : List Nat) : ℚ × ℚ :=
  cand.foldl (densityBody P ps particle) (0, 0)

/-- The per-particle body of `SPH::computeDensities`: accumulate the two sums
over the 27-cell candidate list, then store `density/correction` as the
density, `mass / density()` (the just-stored density) as the volume, and
`pressure(density)` — the *raw* sum — as the pressure. -/
def densityStep (P : Params) (d : GridDims) (g : Grid) (ps : List Particle)
    (i : Nat) : Particle :=
  let particle := ps.getD i default
  let cand := candidates d g particle.cellIndex
  let sums := densitySums P ps particle cand
  let density := sums.1
  let correction := sums.2
  { particle with
    density := density / correction
    volume := particle.mass / (density / correction)
    pressure := pressure P density }

/-- A sequential in-place pass: process the listed indices in order, each step
overwriting slot `i` of the evolving particle list.  This is the sequential
semantics of the `for` loops of `computeDensities` / `computeForces` (the
source annotates them `#pragma omp parallel for`, but the embedded program is
their in-order elaboration). -/
def passUpdate (step : List Particle → Nat → Particle)
    (ps : List Particle) (l : List Nat) : List Particle :=
  l.foldl (fun acc i => acc.set i (step acc i)) ps

/-- `SPH::computeDensities`. -/
def computeDensities (P : Params) (d : GridDims) (s : SimState) : SimState :=
  ⟨passUpdate (densityStep P d s.grid) s.particles
    (List.range s.particles.length), s.grid⟩

/-- The spec's reading of the density pass (§4.3 of the design, the basis of
claim C2): every particle's sums are evaluated against the *pre-pass* particle
state — each neighbor contributes the density it had before the pass began,
so the result is independent of the processing order. -/
def computeDensitiesSnapshot (P : Params) (d : GridDims) (s : SimState) :
    SimState :=
  ⟨(List.range s.particles.length).map
    (fun i => densityStep P d s.grid s.particles i), s.grid⟩

/-- The per-particle body of `SPH::computeForces`: accumulate pressure force,
viscosity force, tension force and the correction sum over the candidate
list; `sq` is the C library `sqrt` used to form `r` from `r²`. -/
def forceBody (P : Params) (sq : ℚ → ℚ) (ps : List Particle)
    (particle : Particle) (acc : Vec3 × Vec3 × Vec3 × ℚ) (k : Nat) :
    Vec3 × Vec3 × Vec3 × ℚ :=
  let neighbor := ps.getD k default
  let difference := Vec3.sub particle.position neighbor.position
  let r2 := difference.lengthSquared
  if r2 < P.smoothingRadius2 then
    let r := sq r2
    let volume := neighbor.volume
    let meanPressure := (neighbor.pressure + particle.pressure) * (1 / 2)
    let pressureForce :=
      Vec3.sub acc.1
        (Vec3.smul (pressureKernel P r * meanPressure * volume) difference)
    let viscosityForce :=
      Vec3.add acc.2.1
        (Vec3.smul (viscosityKernel P r * volume)
          (Vec3.sub neighbor.velocity particle.velocity))
    let kernelRR := densityKernel P r2
    let tensionForce := Vec3.add acc.2.2.1 (Vec3.smul kernelRR difference)
    let correction := acc.2.2.2 + kernelRR * volume
    (pressureForce, viscosityForce, tensionForce, correction)
  else acc

def forceStep (P : Params) (d : GridDims) (g : Grid) (gravity : Vec3)
    (sq : ℚ → ℚ) (ps : List Particle) (i : Nat) : Particle :=
  let particle := ps.getD i default
  let cand := candidates d g particle.cellIndex
  let acc := cand.foldl (forceBody P sq ps particle) (Vec3.zero, Vec3.zero, Vec3.zero, 0)
  let correction := acc.2.2.2
  let pressureForce := Vec3.smul (P.pressure / correction) acc.1
  let viscosityForce := Vec3.smul (P.viscosity / correction) acc.2.1
  let tensionForce := Vec3.smul (P.surfaceTension / correction) acc.2.2.1
  { particle with
    acceleration :=
      Vec3.add
        (Vec3.divQ
          (Vec3.sub (Vec3.sub viscosityForce pressureForce) tensionForce)
          particle.density)
        gravity }

/-- `SPH::computeForces`; `gravity` is the world gravity already mapped into
the local frame by the (external) scene-graph transform. -/
def computeForces (P : Params) (d : GridDims) (gravity : Vec3) (sq : ℚ → ℚ)
    (s : SimState) : SimState :=
  ⟨passUpdate (forceStep P d s.grid gravity sq) s.particles
    (List.range s.particles.length), s.grid⟩

/-- The record the container's `intersect` fills on a hit: the ray parameter
`t`, the hit position and the surface normal (`Intersection` in the source;
the geometry itself is an external collaborator). -/
structure Intersection where
  rayParameterT : ℚ
  position : Vec3
  normal : Vec3
deriving DecidableEq

/-- A ray, as built by `Ray(position, direction)` in `moveParticles`. -/
structure Ray where
  origin : Vec3
  direction : Vec3
deriving DecidableEq

/-- The container geometry's `intersect` member, modelled as an oracle at the
interface the spec gives for the external collaborator: it may report a hit
for a queried ray, or none. -/
def ContainerOracle : Type := Ray → Option Intersection

/-- The fixed nudge constant `bias = 0.0005` of `moveParticles`. -/
def bias : ℚ := 1 / 2000

/-- The state of the `while (true)` collision loop of `SPH::moveParticles`:
current position, tentative final position, current movement, remaining
movement, and the (already Euler-updated) velocity. -/
structure LoopState where
  position : Vec3
  newPosition : Vec3
  movement : Vec3
  movementLeft : Vec3
  velocity : Vec3
deriving DecidableEq

/-- One iteration of the collision loop.  `Sum.inl` is the intersection branch
(loop again with the updated state); `Sum.inr` is the exit branch, which
commits `position + movement` and the velocity. -/
def loopStep (oracle : ContainerOracle) (sq : ℚ → ℚ) (st : LoopState) :
    LoopState ⊕ (Vec3 × Vec3) :=
  let direction := Vec3.normalizedWith sq st.movement
  let ray : Ray := ⟨st.position, direction⟩
  match oracle ray with
  | some intersection =>
    if Vec3.lengthWith sq (Vec3.smul intersection.rayParameterT direction) <
        Vec3.lengthWith sq st.movementLeft then
      let normal := intersection.normal
      let position := intersection.position
      let movementLeft := Vec3.sub st.newPosition position
      let movement :=
        Vec3.sub movementLeft (Vec3.smul (Vec3.dot movementLeft normal) normal)
      let position2 := Vec3.sub position (Vec3.smul bias normal)
      let newPosition := Vec3.add position2 movement
      let velocity :=
        Vec3.sub st.velocity (Vec3.smul (Vec3.dot st.velocity normal) normal)
      Sum.inl ⟨position2, newPosition, movement, movementLeft, velocity⟩
    else Sum.inr (Vec3.add st.position st.movement, st.velocity)
  | none => Sum.inr (Vec3.add st.position st.movement, st.velocity)

/-- Run the collision loop.  The C++ loop is `while (true)` with no iteration
cap, so the embedding carries explicit fuel: `none` means the given number of
iterations did not reach the exit branch. -/
def runLoop (oracle : ContainerOracle) (sq : ℚ → ℚ) :
    Nat → LoopState → Option (Vec3 × Vec3)
  | 0, _ => none
  | fuel + 1, st =>
    match loopStep oracle sq st with
    | Sum.inl st2 => runLoop oracle sq fuel st2
    | Sum.inr result => some result

/-- The per-particle body of `SPH::moveParticles` up to the commit: the
semi-implicit Euler update (velocity first, then the tentative position from
the *new* velocity) followed by the collision loop. -/
def moveOne (oracle : ContainerOracle) (sq : ℚ → ℚ) (fuel : Nat)
    (deltaTime : ℚ) (p : Particle) : Option (Vec3 × Vec3) :=
  let velocity := Vec3.add p.velocity (Vec3.smul deltaTime p.acceleration)
  let position := p.position
  let newPosition := Vec3.add p.position (Vec3.smul deltaTime velocity)
  let movement := Vec3.sub newPosition position
  runLoop oracle sq fuel ⟨position, newPosition, movement, movement, velocity⟩

/-- The tail of the `moveParticles` body: commit the returned position and
velocity, recompute the grid cell from the committed position, and if it
changed, update the stored index and re-bucket with
`removeParticle`/`addParticle`. -/
def moveCommit (d : GridDims) (s : SimState) (i : Nat) (pos vel : Vec3) :
    SimState :=
  let p := s.particles.getD i default
  let p2 := { p with position := pos, velocity := vel }
  let oldCellIndex := p2.cellIndex
  let newCellIndex := d.cellIndex pos
  if oldCellIndex ≠ newCellIndex then
    ⟨s.particles.set i { p2 with cellIndex := newCellIndex },
     (s.grid.removeParticle oldCellIndex i).addParticle newCellIndex i⟩
  else
    ⟨s.particles.set i p2, s.grid⟩

/-- Process the listed particle indices in order through
`moveOne`/`moveCommit`; `none` if any particle's collision loop exhausts its
fuel. -/
def moveAll (d : GridDims) (oracle : ContainerOracle) (sq : ℚ → ℚ)
    (fuel : Nat) (deltaTime : ℚ) : List Nat → SimState → Option SimState
  | [], s => some s
  | i :: rest, s =>
    match moveOne oracle sq fuel deltaTime (s.particles.getD i default) with
    | none => none
    | some (pos, vel) =>
      moveAll d oracle sq fuel deltaTime rest (moveCommit d s i pos vel)

/-- `SPH::moveParticles`. -/
def moveParticles (d : GridDims) (oracle : ContainerOracle) (sq : ℚ → ℚ)
    (fuel : Nat) (deltaTime : ℚ) (s : SimState) : Option SimState :=
  moveAll d oracle sq fuel deltaTime (List.range s.particles.length) s

/-- `SPH::animate`: clamp the time step to `maxDeltaTime`, then run the
Density Solver, the Force Solver and the Integrator in sequence.
`gravityLocal` is `localTransformation().inverted().mapVector(_gravity)`,
computed by the external scene graph. -/
def animate (P : Params) (d : GridDims) (gravityLocal : Vec3)
    (oracle : ContainerOracle) (sq : ℚ → ℚ) (fuel : Nat) (deltaTime : ℚ)
    (s : SimState) : Option SimState :=
  let dt := if deltaTime > P.maxDeltaTime then P.maxDeltaTime else deltaTime
  moveParticles d oracle sq fuel dt
    (computeForces P d gravityLocal sq (computeDensities P d s))

/-- The body of the `initializeParticles` loop for one particle index. -/
def initStep (P : Params) (d : GridDims) (positions : List Vec3) (mass : ℚ)
    (s : SimState) (i : Nat) : SimState :=
  let position := positions.getD i Vec3.zero
  let cellIndex := d.cellIndex position
  let particle : Particle :=
    { position := position
      velocity := Vec3.zero
      acceleration := Vec3.zero
      mass := mass
      density := P.restDensity
      volume := mass / P.restDensity
      pressure := 0
      cellIndex := cellIndex }
  ⟨s.particles.set i particle, s.grid.addParticle cellIndex i⟩

/-- The state after the first `k` iterations of the `initializeParticles`
loop, starting from the default particle store and one empty bucket per
cell. -/
def initPrefix (P : Params) (d : GridDims) (positions : List Vec3) (mass : ℚ)
    (k : Nat) : SimState :=
  (List.range k).foldl (initStep P d positions mass)
    ⟨List.replicate positions.length default,
     ⟨List.replicate (d.nbX * d.nbY * d.nbZ) []⟩⟩

/-- `SPH::initializeParticles`: mass = totalVolume·restDensity / count,
density = restDensity, volume = mass/restDensity, position from the
container's random interior point generator (modelled as the supplied
`positions` list), cell index from the grid, and a grid `addParticle` per
particle.  The grid starts with one empty bucket per cell. -/
def initializeParticles (P : Params) (d : GridDims) (totalVolume : ℚ)
    (positions : List Vec3) : SimState :=
  let totalMass := totalVolume * P.restDensity
  let mass := totalMass / (positions.length : ℚ)
  initPrefix P d positions mass positions.length

/-- `SPH::surfaceInfo`: density and per-axis kernel-gradient sums over the
candidate neighbors of the query position's cell, then
`normal = -(normalize(gradient / restDensity))` and
`value = density / restDensity - (1 - a)` with `a = 0.3`. -/
def surfaceBody (P : Params) (ps : List Particle) (position : Vec3)
    (acc : ℚ × ℚ × ℚ × ℚ) (k : Nat) : ℚ × ℚ × ℚ × ℚ :=
  let neighbor := ps.getD k default
  let difference := Vec3.sub position neighbor.position
  let r2 := difference.lengthSquared
  if r2 < P.smoothingRadius2 then
    (acc.1 + densityKernel P r2 * neighbor.mass,
     acc.2.1 + 2 * (position.x - neighbor.position.x) *
       densitykernelGradient P r2 * neighbor.mass,
     acc.2.2.1 + 2 * (position.y - neighbor.position.y) *
       densitykernelGradient P r2 * neighbor.mass,
     acc.2.2.2 + 2 * (position.z - neighbor.position.z) *
       densitykernelGradient P r2 * neighbor.mass)
  else acc

def surfaceInfo (P : Params) (d : GridDims) (sq : ℚ → ℚ) (ps : List Particle)
    (g : Grid) (position : Vec3) : ℚ × Vec3 :=
  let acc :=
    (candidates d g (d.cellIndex position)).foldl (surfaceBody P ps position)
      (0, 0, 0, 0)
  let density := acc.1
  let normal0 : Vec3 :=
    ⟨acc.2.1 / P.restDensity, acc.2.2.1 / P.restDensity,
     acc.2.2.2 / P.restDensity⟩
  let normal := Vec3.neg (Vec3.normalizedWith sq normal0)
  let a : ℚ := 3 / 10
  (density / P.restDensity - (1 - a), normal)

/-! ### Spec-side neighbor sums (stated from the claims' formulas) -/
/-- The candidate neighbors lying strictly within the smoothing radius of a
center point: the spec's neighbors with `r² < h²`. -/
def withinRadius (P : Params) (ps : List Particle) (center : Vec3)
    (cand : List Nat) : List Nat :=
  cand.filter (fun k =>
    decide ((Vec3.sub center (ps.getD k default).position).lengthSquared <
      P.smoothingRadius2))

/-- The spec's raw density sum `Σ W(r²)·mass_j` over the within-radius
neighbors. -/
def rawSum (P : Params) (ps : List Particle) (center : Vec3)
    (cand : List Nat) : ℚ :=
  ((withinRadius P ps center cand).map (fun k =>
    densityKernel P
        (Vec3.sub center (ps.getD k default).position).lengthSquared *
      (ps.getD k default).mass)).sum

/-- The spec's correction sum `Σ W(r²)·mass_j/density_j` over the
within-radius neighbors. -/
def corrSum (P : Params) (ps : List Particle) (center : Vec3)
    (cand : List Nat) : ℚ :=
  ((withinRadius P ps center cand).map (fun k =>
    densityKernel P
        (Vec3.sub center (ps.getD k default).position).lengthSquared *
      (ps.getD k default).mass / (ps.getD k default).density)).sum

/-- The particle list obtained after the density pass has processed the slots
before `i` (in index order). -/
def densityPrefix (P : Params) (d : GridDims) (s : SimState) (i : Nat) :
    List Particle :=
  passUpdate (densityStep P d s.grid) s.particles (List.range i)

/-! ### Vector sums and the force-pass accumulation -/
def vecSum (l : List Vec3) : Vec3 := l.foldl Vec3.add Vec3.zero

/-- The squared distance between a center point and the `k`-th particle. -/
def r2Of (ps : List Particle) (center : Vec3) (k : Nat) : ℚ :=
  (Vec3.sub center (ps.getD k default).position).lengthSquared

/-- The spec's accumulated pressure force,
`−= difference·(pressureKernel(r)·meanPressure·neighborVolume)` with
`meanPressure = (neighborPressure + ownPressure)·½`, summed over the
within-radius neighbors. -/
def pressureForceSum (P : Params) (sq : ℚ → ℚ) (ps : List Particle)
    (particle : Particle) (cand : List Nat) : Vec3 :=
  vecSum ((withinRadius P ps particle.position cand).map (fun k =>
    Vec3.neg (Vec3.smul
      (pressureKernel P (sq (r2Of ps particle.position k)) *
        (((ps.getD k default).pressure + particle.pressure) * (1 / 2)) *
        (ps.getD k default).volume)
      (Vec3.sub particle.position (ps.getD k default).position))))

/-- The spec's accumulated viscosity force,
`+= (neighborVelocity − ownVelocity)·(viscosityKernel(r)·neighborVolume)`. -/
def viscosityForceSum (P : Params) (sq : ℚ → ℚ) (ps : List Particle)
    (particle : Particle) (cand : List Nat) : Vec3 :=
  vecSum ((withinRadius P ps particle.position cand).map (fun k =>
    Vec3.smul (viscosityKernel P (sq (r2Of ps particle.position k)) *
        (ps.getD k default).volume)
      (Vec3.sub (ps.getD k default).velocity particle.velocity)))

/-- The spec's accumulated tension force, `+= difference·densityKernel(r²)`. -/
def tensionForceSum (P : Params) (ps : List Particle) (particle : Particle)
    (cand : List Nat) : Vec3 :=
  vecSum ((withinRadius P ps particle.position cand).map (fun k =>
    Vec3.smul (densityKernel P (r2Of ps particle.position k))
      (Vec3.sub particle.position (ps.getD k default).position)))

/-- The spec's force correction sum, `Σ densityKernel(r²)·neighborVolume`. -/
def forceCorrSum (P : Params) (ps : List Particle) (particle : Particle)
    (cand : List Nat) : ℚ :=
  ((withinRadius P ps particle.position cand).map (fun k =>
    densityKernel P (r2Of ps particle.position k) *
      (ps.getD k default).volume)).sum

/-- A particle with its (per-step transient) acceleration cleared: the force
pass writes only the acceleration, so everything else factors through this
projection. -/
def eraseAccel (p : Particle) : Particle := { p with acceleration := Vec3.zero }

/-- The particle list after the force pass has processed the slots before
`i`. -/
def forcePrefix (P : Params) (d : GridDims) (gravity : Vec3) (sq : ℚ → ℚ)
    (s : SimState) (i : Nat) : List Particle :=
  passUpdate (forceStep P d s.grid gravity sq) s.particles (List.range i)

/-! ### Concrete states used by counterexamples and witnesses -/
/-- Concrete parameters: unit coefficients, unit smoothing radius, unit rest
density. -/
def cParams : Params := ⟨1, 1, 1, 1, 1, 1, 1, 1, 1, 1, Vec3.zero⟩

/-- A 1×1×1 grid (a single cell, its own only neighbor). -/
def cDims : GridDims := ⟨0, 0, 0, 1, 1, 1, 1, 1, 1⟩

/-- A particle at the origin with the given mass and (previous-step)
density. -/
def cParticle (m dns : ℚ) : Particle :=
  { position := Vec3.zero, velocity := Vec3.zero, acceleration := Vec3.zero,
    mass := m, density := dns, volume := 0, pressure := 0, cellIndex := 0 }

/-- One particle of mass 2 and density 1, alone in the single cell. -/
def cStateOne : SimState := ⟨[cParticle 2 1], ⟨[[0]]⟩⟩

/-- Two coincident particles, masses 2 and 3, previous densities 1 and 2,
bucketed in the same single cell. -/
def cStateTwo : SimState := ⟨[cParticle 2 1, cParticle 3 2], ⟨[[0, 1]]⟩⟩

/-- One particle of mass 0: its density and correction sums are both 0, the
degenerate case of claim C3. -/
def cStateZeroMass : SimState := ⟨[cParticle 0 1], ⟨[[0]]⟩⟩

/-! ### Claim C6: the kernel coefficients over ℝ

`initializeCoefficients` computes the three normalization coefficients from
the smoothing radius using `M_PI`; since π is irrational these definitions
live over ℝ (and are therefore `noncomputable`), mirroring `SPH.cpp:91-105`
and the kernels at `SPH.cpp:125-152`. -/
/-- `_coeffPoly6 = 315 / (64·π·h⁹)`, with `h⁹` formed as `h⁶·h²·h` exactly as
in `initializeCoefficients`. -/
noncomputable def coeffPoly6R (h : ℝ) : ℝ :=
  let h2 := h * h
  let h6 := h2 * h2 * h2
  let h9 := h6 * h2 * h
  315 / (64 * Real.pi * h9)

/-- `_coeffSpiky = 3·15 / (π·h⁶)`. -/
noncomputable def coeffSpikyR (h : ℝ) : ℝ :=
  let h2 := h * h
  let h6 := h2 * h2 * h2
  3 * 15 / (Real.pi * h6)

/-- `_coeffVisc = 45 / (π·h⁶)`. -/
noncomputable def coeffViscR (h : ℝ) : ℝ :=
  let h2 := h * h
  let h6 := h2 * h2 * h2
  45 / (Real.pi * h6)

/-- `SPH::densityKernel` over ℝ. -/
noncomputable def densityKernelR (h r2 : ℝ) : ℝ :=
  let diff := h * h - r2
  coeffPoly6R h * diff * diff * diff

/-- `SPH::densitykernelGradient` over ℝ. -/
noncomputable def densitykernelGradientR (h r2 : ℝ) : ℝ :=
  let diff := h * h - r2; -3 * coeffPoly6R h * diff * diff

/-- `SPH::pressureKernel` over ℝ. -/
noncomputable def pressureKernelR (h r : ℝ) : ℝ :=
  if r = 0 then 0
  else
    let diff := h - r
    coeffSpikyR h * diff * diff / r

/-- `SPH::viscosityKernel` over ℝ. -/
noncomputable def viscosityKernelR (h r : ℝ) : ℝ :=
  coeffViscR h * (h - r)

/-! ### Claim C4 -/
/-- A loop state with zero movement and remaining movement `−bias·ẑ`, reached
below from a particle moving straight at a boundary; it is a fixed point of
the collision loop under `cycOracle`. -/
def cycState : LoopState :=
  ⟨Vec3.zero, Vec3.zero, Vec3.zero, ⟨0, 0, -bias⟩, Vec3.zero⟩

/-- A type-conforming container response: every queried ray reports a hit at
height `bias` above the origin with outward normal `ẑ` at parameter 0. -/
def cycOracle : ContainerOracle := fun _ => some ⟨0, ⟨0, 0, bias⟩, ⟨0, 0, 1⟩⟩

/-- A square-root table agreeing with the real square root on every value
this run applies it to (`0 ↦ 0`, `1 ↦ 1`, `bias² ↦ bias`; other positive
inputs are only compared against 0 and are mapped to 1). -/
def cycSq : ℚ → ℚ := fun q =>
  if q = 0 then 0 else if q = 1 then 1 else if q = bias * bias then bias else 1

/-- A particle at the origin moving with unit velocity straight at the
boundary reported by `cycOracle`. -/
def cMovingParticle : Particle :=
  { position := Vec3.zero, velocity := ⟨0, 0, 1⟩, acceleration := Vec3.zero,
    mass := 1, density := 1, volume := 1, pressure := 0, cellIndex := 0 }

/-- A particle at height 1 falling straight down with unit speed. -/
def cP7 : Particle :=
  { position := ⟨0, 0, 1⟩, velocity := ⟨0, 0, -1⟩, acceleration := Vec3.zero,
    mass := 1, density := 1, volume := 1, pressure := 0, cellIndex := 0 }

/-- The planar floor `z = ½` with outward normal `ẑ`, answering only the
downward ray. -/
def cOracle7 : ContainerOracle := fun r =>
  if r.direction = ⟨0, 0, -1⟩ then some ⟨1 / 2, ⟨0, 0, 1 / 2⟩, ⟨0, 0, 1⟩⟩
  else none

/-- A square-root table agreeing with the real square root on every value
this run applies it to (`1 ↦ 1`, `¼ ↦ ½`). -/
def cSq7 : ℚ → ℚ := fun q =>
  if q = 1 then 1 else if q = 1 / 4 then 1 / 2 else 0

/-- The spec's field gradient: the per-axis sum of
`2·(position − neighborPosition)·densityKernelGradient(r²)·mass` over the
within-radius neighbors. -/
def surfaceGradient (P : Params) (ps : List Particle) (center : Vec3)
    (cand : List Nat) : Vec3 :=
  vecSum ((withinRadius P ps center cand).map (fun k =>
    Vec3.smul (2 * densitykernelGradient P (r2Of ps center k) *
        (ps.getD k default).mass)
      (Vec3.sub center (ps.getD k default).position)))

/-! ### Claim C10 -/
/-- Modelled from the spec: the grid dimensions are well-formed when every
axis has at least one cell (fixed at construction). -/
def GridDims.wf (d : GridDims) : Prop := 0 < d.nbX ∧ 0 < d.nbY ∧ 0 < d.nbZ

/-- The grid-consistency invariant of claim C10: the grid has one bucket per
cell, every particle's stored cell index is the cell of its current
position, and each particle's index appears in exactly that cell's
bucket. -/
def gridConsistent (d : GridDims) (s : SimState) : Prop :=
  s.grid.buckets.length = d.nbX * d.nbY * d.nbZ ∧
  ∀ i < s.particles.length,
    (s.particles.getD i default).cellIndex =
      d.cellIndex (s.particles.getD i default).position ∧
    ∀ c, (i ∈ s.grid.cellParticles c ↔
      c = (s.particles.getD i default).cellIndex)

/-! ## Theorems -/

namespace Vec3

theorem ext_iff {a b : Vec3} : a = b ↔ a.x = b.x ∧ a.y = b.y ∧ a.z = b.z := by
  cases a; cases b; simp [mk.injEq]

@[simp] theorem add_x (a b : Vec3) : (add a b).x = a.x + b.x := rfl

@[simp] theorem add_y (a b : Vec3) : (add a b).y = a.y + b.y := rfl

@[simp] theorem add_z (a b : Vec3) : (add a b).z = a.z + b.z := rfl

@[simp] theorem sub_x (a b : Vec3) : (sub a b).x = a.x - b.x := rfl

@[simp] theorem sub_y (a b : Vec3) : (sub a b).y = a.y - b.y := rfl

@[simp] theorem sub_z (a b : Vec3) : (sub a b).z = a.z - b.z := rfl

@[simp] theorem neg_x (a : Vec3) : (neg a).x = -a.x := rfl

@[simp] theorem neg_y (a : Vec3) : (neg a).y = -a.y := rfl

@[simp] theorem neg_z (a : Vec3) : (neg a).z = -a.z := rfl

@[simp] theorem smul_x (s : ℚ) (a : Vec3) : (smul s a).x = s * a.x := rfl

@[simp] theorem smul_y (s : ℚ) (a : Vec3) : (smul s a).y = s * a.y := rfl

@[simp] theorem smul_z (s : ℚ) (a : Vec3) : (smul s a).z = s * a.z := rfl

@[simp] theorem divQ_x (a : Vec3) (s : ℚ) : (divQ a s).x = a.x / s := rfl

@[simp] theorem divQ_y (a : Vec3) (s : ℚ) : (divQ a s).y = a.y / s := rfl

@[simp] theorem divQ_z (a : Vec3) (s : ℚ) : (divQ a s).z = a.z / s := rfl

@[simp] theorem zero_x : (zero).x = 0 := rfl

@[simp] theorem zero_y : (zero).y = 0 := rfl

@[simp] theorem zero_z : (zero).z = 0 := rfl

theorem add_assoc (a b c : Vec3) : add (add a b) c = add a (add b c) := by
  simp [ext_iff]; refine ⟨by ring, by ring, by ring⟩

theorem add_comm (a b : Vec3) : add a b = add b a := by
  simp [ext_iff]; refine ⟨by ring, by ring, by ring⟩

@[simp] theorem add_zero (a : Vec3) : add a zero = a := by
  simp [ext_iff]

@[simp] theorem zero_add (a : Vec3) : add zero a = a := by
  simp [ext_iff]

@[simp] theorem sub_self (a : Vec3) : sub a a = zero := by
  simp [ext_iff]

@[simp] theorem smul_zero_vec (s : ℚ) : smul s zero = zero := by
  simp [ext_iff]

@[simp] theorem smul_zero_scalar (a : Vec3) : smul 0 a = zero := by
  simp [ext_iff]

@[simp] theorem divQ_zero_vec (s : ℚ) : divQ zero s = zero := by
  simp [ext_iff, zero_div]

@[simp] theorem add_sub_cancel_left (a b : Vec3) : sub (add a b) a = b := by
  simp [ext_iff]

@[simp] theorem lengthSquared_zero : lengthSquared zero = 0 := by
  simp [lengthSquared, dot]

@[simp] theorem dot_zero_left (a : Vec3) : dot zero a = 0 := by
  simp [dot]

theorem lengthSquared_neg (a : Vec3) : lengthSquared (neg a) = lengthSquared a := by
  simp [lengthSquared, dot, neg]

theorem neg_divQ (a : Vec3) (s : ℚ) : neg (divQ a s) = divQ (neg a) s := by
  simp [ext_iff]; refine ⟨by ring, by ring, by ring⟩

@[simp] theorem normalizedWith_zero (sq : ℚ → ℚ) : normalizedWith sq zero = zero := by
  simp [normalizedWith]

end Vec3

/-! ### List update machinery shared by the pass lemmas -/
theorem getD_set {α : Type} [Inhabited α] (ps : List α) (j i : Nat) (v : α) :
    (ps.set j v).getD i default =
      if i = j ∧ j < ps.length then v else ps.getD i default := by
  by_cases hij : i = j
  · subst hij
    by_cases hlen : i < ps.length
    · simp [List.getD_eq_getElem?_getD, List.getElem?_set_self, hlen]
    · simp [List.getD_eq_getElem?_getD, List.getElem?_set, hlen,
        List.getElem?_eq_none (Nat.le_of_not_lt hlen)]
  · simp [List.getD_eq_getElem?_getD, List.getElem?_set_ne (fun h => hij h.symm),
      hij]

theorem passUpdate_nil (step : List Particle → Nat → Particle)
    (ps : List Particle) : passUpdate step ps [] = ps := rfl

theorem passUpdate_cons (step : List Particle → Nat → Particle)
    (ps : List Particle) (i : Nat) (l : List Nat) :
    passUpdate step ps (i :: l) = passUpdate step (ps.set i (step ps i)) l :=
  rfl

theorem passUpdate_append (step : List Particle → Nat → Particle)
    (ps : List Particle) (l1 l2 : List Nat) :
    passUpdate step ps (l1 ++ l2) =
      passUpdate step (passUpdate step ps l1) l2 := by
  simp [passUpdate, List.foldl_append]

theorem passUpdate_singleton (step : List Particle → Nat → Particle)
    (ps : List Particle) (i : Nat) :
    passUpdate step ps [i] = ps.set i (step ps i) := rfl

theorem length_passUpdate (step : List Particle → Nat → Particle)
    (l : List Nat) : ∀ ps : List Particle,
    (passUpdate step ps l).length = ps.length := by
  induction l with
  | nil => intro ps; rfl
  | cons j t ih =>
    intro ps
    rw [passUpdate_cons, ih]
    simp

theorem getD_passUpdate_not_mem (step : List Particle → Nat → Particle)
    (l : List Nat) (i : Nat) (h : i ∉ l) : ∀ ps : List Particle,
    (passUpdate step ps l).getD i default = ps.getD i default := by
  induction l with
  | nil => intro ps; rfl
  | cons j t ih =>
    intro ps
    rw [passUpdate_cons, ih (fun hm => h (List.mem_cons_of_mem _ hm))]
    rw [getD_set]
    have hij : ¬ i = j := fun e => h (e ▸ List.mem_cons_self _ _)
    simp [hij]

/-- The value the in-place pass leaves in slot `i < n`: the step function
applied, in the state reached after processing the indices before `i`. -/
theorem getD_passUpdate_range (step : List Particle → Nat → Particle)
    (i : Nat) : ∀ (n : Nat) (ps : List Particle), i < n → i < ps.length →
    (passUpdate step ps (List.range n)).getD i default =
      step (passUpdate step ps (List.range i)) i := by
  intro n
  induction n with
  | zero => intro ps hi _; exact absurd hi (Nat.not_lt_zero i)
  | succ n ih =>
    intro ps hi hlen
    rw [List.range_succ, passUpdate_append, passUpdate_singleton]
    by_cases hin : i = n
    · subst hin
      rw [getD_set]
      simp [length_passUpdate, hlen]
    · have hi' : i < n := Nat.lt_of_le_of_ne (Nat.lt_succ_iff.mp hi) hin
      rw [getD_set]
      simp only [hin, false_and, if_false]
      exact ih ps hi' hlen

/-- A field-projection preservation principle: if every step only changes a
slot in ways a projection `f` cannot see, the whole pass is invisible to
`f`. -/
theorem getD_passUpdate_proj {α : Type} (f : Particle → α)
    (step : List Particle → Nat → Particle)
    (hstep : ∀ ps j, f (step ps j) = f (ps.getD j default))
    (l : List Nat) (i : Nat) : ∀ ps : List Particle,
    f ((passUpdate step ps l).getD i default) = f (ps.getD i default) := by
  induction l with
  | nil => intro ps; rfl
  | cons j t ih =>
    intro ps
    rw [passUpdate_cons, ih]
    rw [getD_set]
    by_cases hc : i = j ∧ j < ps.length
    · simp only [hc, and_self, if_true, hstep, hc.1]
    · simp [hc]

/-- The density-pass accumulation loop computes exactly the two spec sums. -/
theorem densityBody_foldl (P : Params) (ps : List Particle)
    (particle : Particle) (cand : List Nat) : ∀ a b : ℚ,
    cand.foldl (densityBody P ps particle) (a, b) =
      (a + rawSum P ps particle.position cand,
       b + corrSum P ps particle.position cand) := by
  induction cand with
  | nil =>
    intro a b
    simp [rawSum, corrSum, withinRadius]
  | cons k t ih =>
    intro a b
    rw [List.foldl_cons]
    by_cases hk : (Vec3.sub particle.position
        (ps.getD k default).position).lengthSquared < P.smoothingRadius2
    · have hbody : densityBody P ps particle (a, b) k =
          (a + densityKernel P (Vec3.sub particle.position
              (ps.getD k default).position).lengthSquared *
            (ps.getD k default).mass,
           b + densityKernel P (Vec3.sub particle.position
              (ps.getD k default).position).lengthSquared *
            (ps.getD k default).mass / (ps.getD k default).density) := by
        simp only [densityBody]
        rw [if_pos hk]
      rw [hbody, ih]
      simp only [rawSum, corrSum, withinRadius, List.filter_cons,
        decide_eq_true_eq, hk, if_true, List.map_cons, List.sum_cons,
        Prod.mk.injEq]
      exact ⟨by ring, by ring⟩
    · have hbody : densityBody P ps particle (a, b) k = (a, b) := by
        simp only [densityBody]
        rw [if_neg hk]
      rw [hbody, ih]
      simp only [rawSum, corrSum, withinRadius, List.filter_cons,
        decide_eq_true_eq, hk, if_false, List.map_cons, List.sum_cons]

theorem densitySums_eq (P : Params) (ps : List Particle) (particle : Particle)
    (cand : List Nat) :
    densitySums P ps particle cand =
      (rawSum P ps particle.position cand,
       corrSum P ps particle.position cand) := by
  rw [densitySums, densityBody_foldl]
  simp

theorem densityStep_mass (P : Params) (d : GridDims) (g : Grid)
    (ps : List Particle) (i : Nat) :
    (densityStep P d g ps i).mass = (ps.getD i default).mass := rfl

theorem densityStep_position (P : Params) (d : GridDims) (g : Grid)
    (ps : List Particle) (i : Nat) :
    (densityStep P d g ps i).position = (ps.getD i default).position := rfl

theorem densityStep_cellIndex (P : Params) (d : GridDims) (g : Grid)
    (ps : List Particle) (i : Nat) :
    (densityStep P d g ps i).cellIndex = (ps.getD i default).cellIndex := rfl

theorem foldl_vec_add (l : List Vec3) : ∀ a : Vec3,
    l.foldl Vec3.add a = Vec3.add a (vecSum l) := by
  induction l with
  | nil => intro a; simp [vecSum]
  | cons v t ih =>
    intro a
    rw [List.foldl_cons, ih]
    rw [show vecSum (v :: t) = Vec3.add v (vecSum t) by
      rw [vecSum, List.foldl_cons, Vec3.zero_add, ih, vecSum]]
    rw [Vec3.add_assoc]

theorem vecSum_cons (v : Vec3) (l : List Vec3) :
    vecSum (v :: l) = Vec3.add v (vecSum l) := by
  rw [vecSum, List.foldl_cons, Vec3.zero_add, foldl_vec_add, vecSum]

theorem Vec3.sub_add (a b c : Vec3) :
    Vec3.add (Vec3.sub a b) c = Vec3.add a (Vec3.add (Vec3.neg b) c) := by
  simp [Vec3.ext_iff]
  refine ⟨by ring, by ring, by ring⟩

/-- The force-pass accumulation loop computes exactly the four spec sums. -/
theorem forceBody_foldl (P : Params) (sq : ℚ → ℚ) (ps : List Particle)
    (particle : Particle) (cand : List Nat) : ∀ (pf vf tf : Vec3) (c : ℚ),
    cand.foldl (forceBody P sq ps particle) (pf, vf, tf, c) =
      (Vec3.add pf (pressureForceSum P sq ps particle cand),
       Vec3.add vf (viscosityForceSum P sq ps particle cand),
       Vec3.add tf (tensionForceSum P ps particle cand),
       c + forceCorrSum P ps particle cand) := by
  induction cand with
  | nil =>
    intro pf vf tf c
    simp [pressureForceSum, viscosityForceSum, tensionForceSum, forceCorrSum,
      withinRadius, vecSum]
  | cons k t ih =>
    intro pf vf tf c
    rw [List.foldl_cons]
    by_cases hk : (Vec3.sub particle.position
        (ps.getD k default).position).lengthSquared < P.smoothingRadius2
    · have hbody : forceBody P sq ps particle (pf, vf, tf, c) k =
          (Vec3.sub pf (Vec3.smul
            (pressureKernel P (sq (r2Of ps particle.position k)) *
              (((ps.getD k default).pressure + particle.pressure) * (1 / 2)) *
              (ps.getD k default).volume)
            (Vec3.sub particle.position (ps.getD k default).position)),
           Vec3.add vf (Vec3.smul
            (viscosityKernel P (sq (r2Of ps particle.position k)) *
              (ps.getD k default).volume)
            (Vec3.sub (ps.getD k default).velocity particle.velocity)),
           Vec3.add tf (Vec3.smul (densityKernel P (r2Of ps particle.position k))
            (Vec3.sub particle.position (ps.getD k default).position)),
           c + densityKernel P (r2Of ps particle.position k) *
            (ps.getD k default).volume) := by
        simp only [forceBody, r2Of]
        rw [if_pos hk]
      rw [hbody, ih]
      simp only [pressureForceSum, viscosityForceSum, tensionForceSum,
        forceCorrSum, withinRadius, List.filter_cons, decide_eq_true_eq, hk,
        if_true, List.map_cons, List.sum_cons, vecSum_cons, Prod.mk.injEq]
      refine ⟨Vec3.sub_add _ _ _, Vec3.add_assoc _ _ _, Vec3.add_assoc _ _ _,
        by ring⟩
    · have hbody : forceBody P sq ps particle (pf, vf, tf, c) k =
          (pf, vf, tf, c) := by
        simp only [forceBody]
        rw [if_neg hk]
      rw [hbody, ih]
      simp only [pressureForceSum, viscosityForceSum, tensionForceSum,
        forceCorrSum, withinRadius, List.filter_cons, decide_eq_true_eq, hk,
        if_false, List.map_cons, List.sum_cons]

theorem eraseAccel_forceStep (P : Params) (d : GridDims) (g : Grid)
    (gravity : Vec3) (sq : ℚ → ℚ) (ps : List Particle) (i : Nat) :
    eraseAccel (forceStep P d g gravity sq ps i) =
      eraseAccel (ps.getD i default) := rfl

/-- The force pass reads no acceleration, so its per-particle result is the
same whether computed in the half-updated list or in the pre-pass list. -/
theorem forceStep_congr (P : Params) (d : GridDims) (g : Grid)
    (gravity : Vec3) (sq : ℚ → ℚ) (ps ps' : List Particle)
    (h : ∀ k, eraseAccel (ps.getD k default) = eraseAccel (ps'.getD k default))
    (i : Nat) :
    forceStep P d g gravity sq ps i = forceStep P d g gravity sq ps' i := by
  have hpos : ∀ k, (ps.getD k default).position =
      (ps'.getD k default).position := fun k => by
    have h2 := congrArg Particle.position (h k); exact h2
  have hvel : ∀ k, (ps.getD k default).velocity =
      (ps'.getD k default).velocity := fun k => by
    have h2 := congrArg Particle.velocity (h k); exact h2
  have hvol : ∀ k, (ps.getD k default).volume =
      (ps'.getD k default).volume := fun k => by
    have h2 := congrArg Particle.volume (h k); exact h2
  have hpress : ∀ k, (ps.getD k default).pressure =
      (ps'.getD k default).pressure := fun k => by
    have h2 := congrArg Particle.pressure (h k); exact h2
  have hdens : ∀ k, (ps.getD k default).density =
      (ps'.getD k default).density := fun k => by
    have h2 := congrArg Particle.density (h k); exact h2
  have hmass : ∀ k, (ps.getD k default).mass =
      (ps'.getD k default).mass := fun k => by
    have h2 := congrArg Particle.mass (h k); exact h2
  have hcell : ∀ k, (ps.getD k default).cellIndex =
      (ps'.getD k default).cellIndex := fun k => by
    have h2 := congrArg Particle.cellIndex (h k); exact h2
  have hbody : ∀ (acc : Vec3 × Vec3 × Vec3 × ℚ) (k : Nat),
      forceBody P sq ps (ps.getD i default) acc k =
        forceBody P sq ps' (ps'.getD i default) acc k := by
    intro acc k
    simp only [forceBody, hpos, hvel, hvol, hpress]
  have hfold : List.foldl (forceBody P sq ps (ps.getD i default))
      (Vec3.zero, Vec3.zero, Vec3.zero, 0)
      (candidates d g (ps.getD i default).cellIndex) =
    List.foldl (forceBody P sq ps' (ps'.getD i default))
      (Vec3.zero, Vec3.zero, Vec3.zero, 0)
      (candidates d g (ps'.getD i default).cellIndex) := by
    rw [hcell i]
    exact List.foldl_ext _ _ _ (fun acc k _ => hbody acc k)
  simp only [forceStep]
  rw [hfold]
  simp only [hpos, hvel, hvol, hpress, hdens, hmass, hcell]

/-! ### Claim C1 -/
/-- C1 fails as stated: `SPH.cpp:195` stores `pressure(density)` where
`density` is the raw kernel sum, not the corrected density stored at line
193.  Concretely, for a single particle of mass 2 and previous density 1
(with unit coefficients), the stored density is 1 and restDensity is 1, so
the claimed pressure `density/restDensity − 1` is 0 — but the stored pressure
is `rawSum/restDensity − 1 = 2 − 1 = 1`. -/
theorem C1_counterexample :
    ¬ (((computeDensities cParams cDims cStateOne).particles.getD 0
          default).pressure =
        ((computeDensities cParams cDims cStateOne).particles.getD 0
            default).density / cParams.restDensity - 1) := by
  norm_num [computeDensities, passUpdate, densityStep, densitySums,
    densityBody, candidates, GridDims.neighborhood, axisNeighbors,
    Grid.cellParticles, cParams, cDims, cStateOne, cParticle, pressure,
    densityKernel, Vec3.sub, Vec3.lengthSquared, Vec3.dot, Vec3.zero,
    List.range_succ]

/-- C1 (amended): after the Density Solver pass each particle's stored
density equals rawSum/correctionSum and its stored volume equals
mass/density for that final density — the two sums being evaluated in the
particle state current when that particle is processed (earlier-indexed
slots already updated, cf. C2).  The stored pressure, however, equals
rawSum/restDensity − 1, computed from the *raw uncorrected* sum, not from
the corrected final density. -/
theorem C1_density_pass_stores_formulas (P : Params) (d : GridDims)
    (s : SimState) (i : Nat) (hi : i < s.particles.length) :
    ((computeDensities P d s).particles.getD i default).density =
        rawSum P (densityPrefix P d s i)
            (s.particles.getD i default).position
            (candidates d s.grid (s.particles.getD i default).cellIndex) /
          corrSum P (densityPrefix P d s i)
            (s.particles.getD i default).position
            (candidates d s.grid (s.particles.getD i default).cellIndex) ∧
    ((computeDensities P d s).particles.getD i default).volume =
        (s.particles.getD i default).mass /
          ((computeDensities P d s).particles.getD i default).density ∧
    ((computeDensities P d s).particles.getD i default).pressure =
        rawSum P (densityPrefix P d s i)
            (s.particles.getD i default).position
            (candidates d s.grid (s.particles.getD i default).cellIndex) /
          P.restDensity - 1 := by
  have hout : (computeDensities P d s).particles.getD i default =
      densityStep P d s.grid (densityPrefix P d s i) i :=
    getD_passUpdate_range (densityStep P d s.grid) i s.particles.length
      s.particles hi hi
  have hpos : ((densityPrefix P d s i).getD i default).position =
      (s.particles.getD i default).position :=
    getD_passUpdate_proj Particle.position (densityStep P d s.grid)
      (fun _ _ => rfl) (List.range i) i s.particles
  have hcell : ((densityPrefix P d s i).getD i default).cellIndex =
      (s.particles.getD i default).cellIndex :=
    getD_passUpdate_proj Particle.cellIndex (densityStep P d s.grid)
      (fun _ _ => rfl) (List.range i) i s.particles
  have hmass : ((densityPrefix P d s i).getD i default).mass =
      (s.particles.getD i default).mass :=
    getD_passUpdate_proj Particle.mass (densityStep P d s.grid)
      (fun _ _ => rfl) (List.range i) i s.particles
  rw [hout]
  simp only [densityStep, densitySums_eq, pressure, hpos, hcell, hmass]
  trivial

/-- Witness for C1's amended theorem at the single-particle state: the
formulas evaluate to density 1, volume 2 and (raw-sum) pressure 1. -/
theorem C1_witness :
    ((computeDensities cParams cDims cStateOne).particles.getD 0
        default).density = 1 ∧
    ((computeDensities cParams cDims cStateOne).particles.getD 0
        default).volume = 2 ∧
    ((computeDensities cParams cDims cStateOne).particles.getD 0
        default).pressure = 1 := by
  have h := C1_density_pass_stores_formulas cParams cDims cStateOne 0
    (by decide)
  refine ⟨?_, ?_, ?_⟩
  · rw [h.1]
    norm_num [rawSum, corrSum, withinRadius, densityPrefix, passUpdate,
      candidates, GridDims.neighborhood, axisNeighbors, Grid.cellParticles,
      cParams, cDims, cStateOne, cParticle, densityKernel, Vec3.sub,
      Vec3.lengthSquared, Vec3.dot, Vec3.zero]
  · rw [h.2.1]
    norm_num [computeDensities, passUpdate, densityStep, densitySums,
      densityBody, candidates, GridDims.neighborhood, axisNeighbors,
      Grid.cellParticles, cParams, cDims, cStateOne, cParticle, pressure,
      densityKernel, Vec3.sub, Vec3.lengthSquared, Vec3.dot, Vec3.zero,
      List.range_succ]
  · rw [h.2.2]
    norm_num [rawSum, corrSum, withinRadius, densityPrefix, passUpdate,
      candidates, GridDims.neighborhood, axisNeighbors, Grid.cellParticles,
      cParams, cDims, cStateOne, cParticle, densityKernel, Vec3.sub,
      Vec3.lengthSquared, Vec3.dot, Vec3.zero]

/-! ### Claim C2 -/
/-- C2 is wrong about the code: `computeDensities` writes each particle's
density in place (`SPH.cpp:193`) while later-processed particles read their
neighbors' densities (`SPH.cpp:188`), so a neighbor with a smaller index
contributes its *current-pass* density, not its previous-step one — and the
result depends on the processing order (under the source's
`#pragma omp parallel for` the same locations race).  Concretely, for two
coincident particles of masses 2 and 3 and previous densities 1 and 2:
in-order processing stores density 50/29 for particle 1, the snapshot
(previous-step) semantics the claim describes stores 10/7, and processing
the particles in the opposite order changes the result. -/
theorem C2_in_place_update_violates_snapshot :
    ((computeDensities cParams cDims cStateTwo).particles.getD 1
        default).density = 50 / 29 ∧
    ((computeDensitiesSnapshot cParams cDims cStateTwo).particles.getD 1
        default).density = 10 / 7 ∧
    ((passUpdate (densityStep cParams cDims cStateTwo.grid)
        cStateTwo.particles [0, 1]).getD 1 default).density = 50 / 29 ∧
    ((passUpdate (densityStep cParams cDims cStateTwo.grid)
        cStateTwo.particles [1, 0]).getD 1 default).density = 10 / 7 ∧
    (50 : ℚ) / 29 ≠ 10 / 7 := by
  norm_num [computeDensities, computeDensitiesSnapshot, passUpdate,
    densityStep, densitySums, densityBody, candidates, GridDims.neighborhood,
    axisNeighbors, Grid.cellParticles, cParams, cDims, cStateTwo, cParticle,
    pressure, densityKernel, Vec3.sub, Vec3.lengthSquared, Vec3.dot,
    Vec3.zero, List.range_succ]

/-! ### Claim C3 -/
/-- C3 fails as stated: neither solver guards `correction == 0`.  For a
particle whose correction sum is 0 (here: a lone particle of mass 0), the
density pass performs the degenerate division anyway (`SPH.cpp:193`), and
the stored density is not restDensity. -/
theorem C3_counterexample :
    (densitySums cParams cStateZeroMass.particles
        (cStateZeroMass.particles.getD 0 default)
        (candidates cDims cStateZeroMass.grid 0)).2 = 0 ∧
    ((computeDensities cParams cDims cStateZeroMass).particles.getD 0
        default).density ≠ cParams.restDensity := by
  norm_num [computeDensities, passUpdate, densityStep, densitySums,
    densityBody, candidates, GridDims.neighborhood, axisNeighbors,
    Grid.cellParticles, cParams, cDims, cStateZeroMass, cParticle,
    pressure, densityKernel, Vec3.sub, Vec3.lengthSquared, Vec3.dot,
    Vec3.zero, List.range_succ]

/-- C3 (amended): the code has no `correction == 0` guard; instead the
degenerate case cannot arise in a normal run, because the particle itself is
always among its own grid candidates at squared distance 0: whenever the
kernel coefficient and h² are positive, every candidate has nonnegative mass
and positive (previous) density, and the particle itself appears among the
candidates at its own position with positive mass, the correction sum
accumulated by the density loop is strictly positive, so the division is
never degenerate. -/
theorem C3_correction_positive_with_self (P : Params) (ps : List Particle)
    (particle : Particle) (cand : List Nat)
    (hcoeff : 0 < P.coeffPoly6) (hh : 0 < P.smoothingRadius2)
    (hmass : ∀ k ∈ cand, 0 ≤ (ps.getD k default).mass)
    (hdens : ∀ k ∈ cand, 0 < (ps.getD k default).density)
    (i : Nat) (hi : i ∈ cand)
    (hip : (ps.getD i default).position = particle.position)
    (him : 0 < (ps.getD i default).mass) :
    0 < (densitySums P ps particle cand).2 := by
  rw [densitySums_eq]
  have hkernel : ∀ r2 : ℚ, r2 < P.smoothingRadius2 → 0 < densityKernel P r2 := by
    intro r2 hr2
    have hdiff : 0 < P.smoothingRadius2 - r2 := by linarith
    have := mul_pos (mul_pos (mul_pos hcoeff hdiff) hdiff) hdiff
    simpa [densityKernel] using this
  have hmem : i ∈ withinRadius P ps particle.position cand := by
    refine List.mem_filter.mpr ⟨hi, ?_⟩
    rw [decide_eq_true_eq, hip]
    simpa using hh
  have hterm : ∀ a ∈ (withinRadius P ps particle.position cand).map (fun k =>
      densityKernel P
          (Vec3.sub particle.position (ps.getD k default).position).lengthSquared *
        (ps.getD k default).mass / (ps.getD k default).density), 0 ≤ a := by
    intro a ha
    obtain ⟨k, hkl, rfl⟩ := List.mem_map.mp ha
    obtain ⟨hkc, hkr⟩ := List.mem_filter.mp hkl
    rw [decide_eq_true_eq] at hkr
    exact div_nonneg (mul_nonneg (hkernel _ hkr).le (hmass k hkc))
      (hdens k hkc).le
  have hival : 0 < densityKernel P
        (Vec3.sub particle.position (ps.getD i default).position).lengthSquared *
      (ps.getD i default).mass / (ps.getD i default).density := by
    have hz : (Vec3.sub particle.position
        (ps.getD i default).position).lengthSquared = 0 := by
      rw [hip]; simp
    rw [hz]
    exact div_pos (mul_pos (hkernel 0 hh) him) (hdens i hi)
  calc (0 : ℚ) < _ := hival
    _ ≤ _ := List.single_le_sum hterm _ (List.mem_map_of_mem _ hmem)

/-- Witness for C3's amended theorem: for the single mass-2 particle the
correction sum is strictly positive. -/
theorem C3_witness :
    0 < (densitySums cParams cStateOne.particles
        (cStateOne.particles.getD 0 default)
        (candidates cDims cStateOne.grid 0)).2 :=
  C3_correction_positive_with_self cParams cStateOne.particles
    (cStateOne.particles.getD 0 default)
    (candidates cDims cStateOne.grid 0) (by decide) (by decide)
    (by decide) (by decide) 0 (by decide) (by decide) (by decide)

/-! ### Claim C5 -/
/-- C5 (confirmed): after the Force Solver pass, each particle's stored
acceleration is `(viscosityForce − pressureForce − tensionForce)/ownDensity
+ gravity`, where the three forces are the per-neighbor accumulations of the
claim (over the grid candidates with `r² < h²`) scaled by their coefficient
divided by the correction sum `Σ densityKernel(r²)·neighborVolume`.  The
force pass reads no acceleration, so all quantities refer to the pre-pass
state. -/
theorem C5_force_pass_acceleration (P : Params) (d : GridDims)
    (gravity : Vec3) (sq : ℚ → ℚ) (s : SimState) (i : Nat)
    (hi : i < s.particles.length) :
    ((computeForces P d gravity sq s).particles.getD i default).acceleration =
      Vec3.add
        (Vec3.divQ
          (Vec3.sub
            (Vec3.sub
              (Vec3.smul
                (P.viscosity / forceCorrSum P s.particles
                  (s.particles.getD i default)
                  (candidates d s.grid
                    (s.particles.getD i default).cellIndex))
                (viscosityForceSum P sq s.particles
                  (s.particles.getD i default)
                  (candidates d s.grid
                    (s.particles.getD i default).cellIndex)))
              (Vec3.smul
                (P.pressure / forceCorrSum P s.particles
                  (s.particles.getD i default)
                  (candidates d s.grid
                    (s.particles.getD i default).cellIndex))
                (pressureForceSum P sq s.particles
                  (s.particles.getD i default)
                  (candidates d s.grid
                    (s.particles.getD i default).cellIndex))))
            (Vec3.smul
              (P.surfaceTension / forceCorrSum P s.particles
                (s.particles.getD i default)
                (candidates d s.grid
                  (s.particles.getD i default).cellIndex))
              (tensionForceSum P s.particles
                (s.particles.getD i default)
                (candidates d s.grid
                  (s.particles.getD i default).cellIndex))))
          (s.particles.getD i default).density)
        gravity := by
  have hout : (computeForces P d gravity sq s).particles.getD i default =
      forceStep P d s.grid gravity sq (forcePrefix P d gravity sq s i) i :=
    getD_passUpdate_range (forceStep P d s.grid gravity sq) i
      s.particles.length s.particles hi hi
  have hcong : forceStep P d s.grid gravity sq
      (forcePrefix P d gravity sq s i) i =
      forceStep P d s.grid gravity sq s.particles i :=
    forceStep_congr P d s.grid gravity sq _ _
      (fun k => getD_passUpdate_proj eraseAccel
        (forceStep P d s.grid gravity sq) (fun _ _ => rfl)
        (List.range i) k s.particles) i
  rw [hout, hcong]
  simp [forceStep, forceBody_foldl]

/-- Witness for C5 at the single-particle state with gravity (0, −9.8, 0):
all three forces vanish (the only neighbor is the particle itself, at zero
difference and zero relative velocity), so the stored acceleration is
exactly gravity. -/
theorem C5_witness :
    ((computeForces cParams cDims ⟨0, -(49 / 5), 0⟩ (fun _ => 0)
        cStateOne).particles.getD 0 default).acceleration =
      ⟨0, -(49 / 5), 0⟩ := by
  have h := C5_force_pass_acceleration cParams cDims ⟨0, -(49 / 5), 0⟩
    (fun _ => 0) cStateOne 0 (by decide)
  rw [h]
  norm_num [forceCorrSum, pressureForceSum, viscosityForceSum,
    tensionForceSum, withinRadius, r2Of, vecSum, candidates,
    GridDims.neighborhood, axisNeighbors, Grid.cellParticles, cParams, cDims,
    cStateOne, cParticle, densityKernel, pressureKernel, viscosityKernel,
    Vec3.sub, Vec3.lengthSquared, Vec3.dot, Vec3.zero, Vec3.smul, Vec3.add,
    Vec3.divQ, Vec3.neg, Vec3.ext_iff]

/-- C6 (confirmed): for every positive smoothing radius `h`, every
`r² < h²` and every `r > 0`, the kernels match the reference formulas:
`W(r²) = (315/(64π·h⁹))·(h²−r²)³`, its gradient term is
`−3·(315/(64π·h⁹))·(h²−r²)²`, `Wp(r) = (45/(π·h⁶))·(h−r)²/r` with
`Wp(0) = 0`, and `Wv(r) = (45/(π·h⁶))·(h−r)`. -/
theorem C6_kernels_match_reference (h r2 r : ℝ) (hh : 0 < h)
    (hr2 : r2 < h ^ 2) (hr : 0 < r) :
    densityKernelR h r2 = 315 / (64 * Real.pi * h ^ 9) * (h ^ 2 - r2) ^ 3 ∧
    densitykernelGradientR h r2 =
      -3 * (315 / (64 * Real.pi * h ^ 9)) * (h ^ 2 - r2) ^ 2 ∧
    pressureKernelR h r = 45 / (Real.pi * h ^ 6) * (h - r) ^ 2 / r ∧
    pressureKernelR h 0 = 0 ∧
    viscosityKernelR h r = 45 / (Real.pi * h ^ 6) * (h - r) := by
  have hne : h ≠ 0 := ne_of_gt hh
  have hpi : Real.pi ≠ 0 := Real.pi_ne_zero
  have hrne : r ≠ 0 := ne_of_gt hr
  refine ⟨?_, ?_, ?_, ?_, ?_⟩
  · simp only [densityKernelR, coeffPoly6R]
    ring
  · simp only [densitykernelGradientR, coeffPoly6R]
    ring
  · rw [pressureKernelR, if_neg hrne]
    simp only [coeffSpikyR]
    ring
  · rw [pressureKernelR, if_pos rfl]
  · simp only [viscosityKernelR, coeffViscR]
    ring

/-- Witness for C6 at `h = 1`, `r² = 0`, `r = ½`. -/
theorem C6_witness :
    densityKernelR 1 0 = 315 / (64 * Real.pi) ∧
    pressureKernelR 1 0 = 0 ∧
    viscosityKernelR 1 (1 / 2) = 45 / Real.pi * (1 / 2) := by
  have h := C6_kernels_match_reference 1 0 (1 / 2) (by norm_num)
    (by norm_num) (by norm_num)
  refine ⟨?_, h.2.2.2.1, ?_⟩
  · rw [h.1]; norm_num
  · rw [h.2.2.2.2]; norm_num

/-- C4 fails as stated: the `while (true)` loop of `moveParticles`
(`SPH.cpp:297`) has no iteration cap, and a zero-length movement does *not*
short-circuit to the no-intersection branch — the zero vector normalizes to
the zero direction and the container is still consulted.  Under a
type-conforming container response, the loop step maps `cycState` (whose
movement is zero) to itself while staying in the intersection branch, so no
amount of fuel reaches the exit; and the full per-particle integration of
`cMovingParticle` with Δt = 1 enters this cycle and never terminates. -/
theorem C4_counterexample :
    cycState.movement = Vec3.zero ∧
    loopStep cycOracle cycSq cycState = Sum.inl cycState ∧
    runLoop cycOracle cycSq 1000 cycState = none ∧
    moveOne cycOracle cycSq 1000 1 cMovingParticle = none := by
  have hstep : loopStep cycOracle cycSq cycState = Sum.inl cycState := by
    norm_num [loopStep, cycOracle, cycSq, cycState, bias,
      Vec3.normalizedWith, Vec3.lengthSquared, Vec3.dot, Vec3.sub, Vec3.add,
      Vec3.smul, Vec3.divQ, Vec3.zero, Vec3.lengthWith, LoopState.mk.injEq,
      Vec3.mk.injEq]
  have hnone : ∀ fuel, runLoop cycOracle cycSq fuel cycState = none := by
    intro fuel
    induction fuel with
    | zero => rfl
    | succ n ih =>
      rw [runLoop, hstep]
      exact ih
  have hrun : ∀ (fuel : Nat) (st st2 : LoopState),
      loopStep cycOracle cycSq st = Sum.inl st2 →
      runLoop cycOracle cycSq (fuel + 1) st =
        runLoop cycOracle cycSq fuel st2 := by
    intro fuel st st2 h
    rw [runLoop, h]
  have hstart : moveOne cycOracle cycSq 1000 1 cMovingParticle =
      runLoop cycOracle cycSq 1000
        ⟨⟨0, 0, 0⟩, ⟨0, 0, 1⟩, ⟨0, 0, 1⟩, ⟨0, 0, 1⟩, ⟨0, 0, 1⟩⟩ := by
    simp only [moveOne, cMovingParticle]
    norm_num [Vec3.add, Vec3.smul, Vec3.sub, Vec3.zero]
  have h1 : loopStep cycOracle cycSq
      ⟨⟨0, 0, 0⟩, ⟨0, 0, 1⟩, ⟨0, 0, 1⟩, ⟨0, 0, 1⟩, ⟨0, 0, 1⟩⟩ =
      Sum.inl ⟨⟨0, 0, 0⟩, ⟨0, 0, 0⟩, ⟨0, 0, 0⟩, ⟨0, 0, 1 - bias⟩,
        ⟨0, 0, 0⟩⟩ := by
    norm_num [loopStep, cycOracle, cycSq, bias, Vec3.normalizedWith,
      Vec3.lengthSquared, Vec3.dot, Vec3.sub, Vec3.add, Vec3.smul, Vec3.divQ,
      Vec3.zero, Vec3.lengthWith, LoopState.mk.injEq, Vec3.mk.injEq]
  have h2 : loopStep cycOracle cycSq
      ⟨⟨0, 0, 0⟩, ⟨0, 0, 0⟩, ⟨0, 0, 0⟩, ⟨0, 0, 1 - bias⟩, ⟨0, 0, 0⟩⟩ =
      Sum.inl cycState := by
    norm_num [loopStep, cycOracle, cycSq, cycState, bias,
      Vec3.normalizedWith, Vec3.lengthSquared, Vec3.dot, Vec3.sub, Vec3.add,
      Vec3.smul, Vec3.divQ, Vec3.zero, Vec3.lengthWith, LoopState.mk.injEq,
      Vec3.mk.injEq]
  refine ⟨rfl, hstep, hnone 1000, ?_⟩
  rw [hstart]
  rw [show (1000 : Nat) = 999 + 1 from rfl, hrun 999 _ _ h1]
  rw [show (999 : Nat) = 998 + 1 from rfl, hrun 998 _ _ h2]
  exact hnone 998

/-- C4 (amended): the loop imposes no iteration cap and no zero-length
short-circuit of its own; an iteration exits exactly when the container
reports no qualifying hit, committing `position + movement` and the
velocity.  Termination is therefore conditional on the container's
responses, not guaranteed by the loop itself. -/
theorem C4_exit_when_no_hit (oracle : ContainerOracle) (sq : ℚ → ℚ)
    (st : LoopState) (fuel : Nat)
    (h : oracle ⟨st.position, Vec3.normalizedWith sq st.movement⟩ = none) :
    runLoop oracle sq (fuel + 1) st =
      some (Vec3.add st.position st.movement, st.velocity) := by
  rw [runLoop]
  simp only [loopStep, h]

/-- Witness for C4's amended theorem: a container that reports no hit makes
the first iteration commit. -/
theorem C4_witness :
    runLoop (fun _ => none) (fun _ => 0) 1
      ⟨Vec3.zero, Vec3.zero, Vec3.zero, Vec3.zero, Vec3.zero⟩ =
      some (Vec3.add Vec3.zero Vec3.zero, Vec3.zero) :=
  C4_exit_when_no_hit (fun _ => none) (fun _ => 0)
    ⟨Vec3.zero, Vec3.zero, Vec3.zero, Vec3.zero, Vec3.zero⟩ 0 rfl

/-! ### Claim C7 -/
/-- Removing the normal component leaves a vector orthogonal to the (unit)
normal. -/
theorem Vec3.dot_proj (v n : Vec3) (hn : Vec3.dot n n = 1) :
    Vec3.dot (Vec3.sub v (Vec3.smul (Vec3.dot v n) n)) n = 0 := by
  simp only [Vec3.dot, Vec3.sub, Vec3.smul] at hn ⊢
  linear_combination (-(v.x * n.x + v.y * n.y + v.z * n.z)) * hn

/-- Projecting a vector parallel to the (unit) normal onto the tangent plane
yields the zero vector. -/
theorem Vec3.proj_parallel (c : ℚ) (n : Vec3) (hn : Vec3.dot n n = 1) :
    Vec3.sub (Vec3.smul c n)
      (Vec3.smul (Vec3.dot (Vec3.smul c n) n) n) = Vec3.zero := by
  have hd : Vec3.dot (Vec3.smul c n) n = c := by
    simp only [Vec3.dot, Vec3.smul] at hn ⊢
    linear_combination c * hn
  rw [hd]
  simp [Vec3.ext_iff, Vec3.sub, Vec3.smul]

theorem runLoop_succ (oracle : ContainerOracle) (sq : ℚ → ℚ) (fuel : Nat)
    (st : LoopState) :
    runLoop oracle sq (fuel + 1) st =
      match loopStep oracle sq st with
      | Sum.inl st2 => runLoop oracle sq fuel st2
      | Sum.inr result => some result := rfl

/-- C7 (confirmed): a particle moving directly into a planar boundary (its
Euler-updated displacement is parallel to the boundary's unit normal `n`,
and the container reports the hit `H` on that line nearer than the
remaining displacement, then no further hit from the nudged position) ends
the step at `H − bias·n` — offset by the fixed bias 0.0005 along `−n`,
inside the container — with a velocity whose component along `n` is zero
(inelastic, non-bouncing response). -/
theorem C7_planar_collision_response (oracle : ContainerOracle)
    (sq : ℚ → ℚ) (p : Particle) (dt t μ s : ℚ) (n H : Vec3) (fuel : Nat)
    (hn : Vec3.dot n n = 1)
    (hmove : Vec3.smul dt (Vec3.add p.velocity (Vec3.smul dt p.acceleration)) =
      Vec3.smul μ n)
    (hH : H = Vec3.add p.position (Vec3.smul s n))
    (h1 : oracle ⟨p.position, Vec3.normalizedWith sq (Vec3.smul μ n)⟩ =
      some ⟨t, H, n⟩)
    (hcond : Vec3.lengthWith sq
        (Vec3.smul t (Vec3.normalizedWith sq (Vec3.smul μ n))) <
      Vec3.lengthWith sq (Vec3.smul μ n))
    (h2 : oracle ⟨Vec3.sub H (Vec3.smul bias n), Vec3.zero⟩ = none) :
    moveOne oracle sq (fuel + 2) dt p =
      some (Vec3.sub H (Vec3.smul bias n),
        Vec3.sub (Vec3.add p.velocity (Vec3.smul dt p.acceleration))
          (Vec3.smul
            (Vec3.dot (Vec3.add p.velocity (Vec3.smul dt p.acceleration)) n)
            n)) ∧
    Vec3.dot
      (Vec3.sub (Vec3.add p.velocity (Vec3.smul dt p.acceleration))
        (Vec3.smul
          (Vec3.dot (Vec3.add p.velocity (Vec3.smul dt p.acceleration)) n)
          n)) n = 0 := by
  refine ⟨?_, Vec3.dot_proj _ n hn⟩
  have hml : Vec3.sub (Vec3.add p.position (Vec3.smul μ n)) H =
      Vec3.smul (μ - s) n := by
    rw [hH]
    simp [Vec3.ext_iff, Vec3.sub, Vec3.add, Vec3.smul]
    refine ⟨by ring, by ring, by ring⟩
  have hstep1 : loopStep oracle sq
      ⟨p.position, Vec3.add p.position (Vec3.smul μ n), Vec3.smul μ n,
        Vec3.smul μ n, Vec3.add p.velocity (Vec3.smul dt p.acceleration)⟩ =
      Sum.inl ⟨Vec3.sub H (Vec3.smul bias n), Vec3.sub H (Vec3.smul bias n),
        Vec3.zero, Vec3.smul (μ - s) n,
        Vec3.sub (Vec3.add p.velocity (Vec3.smul dt p.acceleration))
          (Vec3.smul
            (Vec3.dot (Vec3.add p.velocity (Vec3.smul dt p.acceleration)) n)
            n)⟩ := by
    simp only [loopStep, h1]
    rw [if_pos hcond]
    rw [hml, Vec3.proj_parallel (μ - s) n hn, Vec3.add_zero]
  have hstep2 : loopStep oracle sq
      ⟨Vec3.sub H (Vec3.smul bias n), Vec3.sub H (Vec3.smul bias n),
        Vec3.zero, Vec3.smul (μ - s) n,
        Vec3.sub (Vec3.add p.velocity (Vec3.smul dt p.acceleration))
          (Vec3.smul
            (Vec3.dot (Vec3.add p.velocity (Vec3.smul dt p.acceleration)) n)
            n)⟩ =
      Sum.inr (Vec3.sub H (Vec3.smul bias n),
        Vec3.sub (Vec3.add p.velocity (Vec3.smul dt p.acceleration))
          (Vec3.smul
            (Vec3.dot (Vec3.add p.velocity (Vec3.smul dt p.acceleration)) n)
            n)) := by
    simp only [loopStep, Vec3.normalizedWith_zero, h2, Vec3.add_zero]
  show runLoop oracle sq (fuel + 1 + 1)
      ⟨p.position, Vec3.add p.position
        (Vec3.smul dt (Vec3.add p.velocity (Vec3.smul dt p.acceleration))),
       Vec3.sub (Vec3.add p.position
         (Vec3.smul dt (Vec3.add p.velocity (Vec3.smul dt p.acceleration))))
         p.position,
       Vec3.sub (Vec3.add p.position
         (Vec3.smul dt (Vec3.add p.velocity (Vec3.smul dt p.acceleration))))
         p.position,
       Vec3.add p.velocity (Vec3.smul dt p.acceleration)⟩ = _
  rw [Vec3.add_sub_cancel_left, hmove]
  simp only [runLoop_succ, hstep1, hstep2]

/-- Witness for C7: the falling particle stops `bias` above the floor
(`z = ½ − 1/2000 = 999/2000`) with zero velocity along the normal. -/
theorem C7_witness :
    moveOne cOracle7 cSq7 2 1 cP7 =
      some ((⟨0, 0, 999 / 2000⟩ : Vec3), (⟨0, 0, 0⟩ : Vec3)) ∧
    Vec3.dot (⟨0, 0, 0⟩ : Vec3) ⟨0, 0, 1⟩ = 0 := by
  have h := C7_planar_collision_response cOracle7 cSq7 cP7 1 (1 / 2) (-1)
    (-(1 / 2)) ⟨0, 0, 1⟩ ⟨0, 0, 1 / 2⟩ 0
    (by norm_num [Vec3.dot])
    (by norm_num [cP7, Vec3.smul, Vec3.add, Vec3.zero, Vec3.ext_iff])
    (by norm_num [cP7, Vec3.add, Vec3.smul, Vec3.ext_iff])
    (by norm_num [cOracle7, cSq7, cP7, Vec3.normalizedWith,
      Vec3.lengthSquared, Vec3.dot, Vec3.smul, Vec3.divQ, Vec3.mk.injEq])
    (by norm_num [cSq7, Vec3.lengthWith, Vec3.normalizedWith,
      Vec3.lengthSquared, Vec3.dot, Vec3.smul, Vec3.divQ])
    (by norm_num [cOracle7, Vec3.zero, Vec3.mk.injEq])
  refine ⟨h.1.trans ?_, by norm_num [Vec3.dot]⟩
  norm_num [cP7, Vec3.sub, Vec3.smul, Vec3.add, Vec3.dot, Vec3.zero, bias,
    Vec3.mk.injEq]

/-! ### Claim C8 -/
/-- C8 (confirmed): for a system of a single particle that is its own only
grid candidate, starting at rest, with local-frame gravity (0, −9.8, 0),
Δt = 0.01 within the clamp, and a container that reports no intersection,
one full step (Density → Force → Integration) stores acceleration exactly
equal to gravity (all SPH forces vanish on the self-neighbor), velocity
(0, −0.098, 0) — updated from the acceleration first — and position offset
(0, −0.00098, 0) = Δt · newVelocity (semi-implicit Euler). -/
theorem C8_single_particle_free_fall (P : Params) (d : GridDims)
    (oracle : ContainerOracle) (sq : ℚ → ℚ) (fuel : Nat) (p0 : Particle)
    (g : Grid)
    (hvel : p0.velocity = Vec3.zero)
    (hcand : candidates d g p0.cellIndex = [0])
    (hh : 0 < P.smoothingRadius2)
    (horacle : ∀ r, oracle r = none)
    (hdt : (1 : ℚ) / 100 ≤ P.maxDeltaTime) :
    (forceStep P d g ⟨0, -(49 / 5), 0⟩ sq [densityStep P d g [p0] 0]
        0).acceleration = ⟨0, -(49 / 5), 0⟩ ∧
    ∃ s', animate P d ⟨0, -(49 / 5), 0⟩ oracle sq (fuel + 1) (1 / 100)
        ⟨[p0], g⟩ = some s' ∧
      (s'.particles.getD 0 default).velocity = ⟨0, -(49 / 500), 0⟩ ∧
      (s'.particles.getD 0 default).position =
        Vec3.add p0.position ⟨0, -(49 / 50000), 0⟩ := by
  have hclamp : (if (1 : ℚ) / 100 > P.maxDeltaTime then P.maxDeltaTime
      else 1 / 100) = 1 / 100 := if_neg (not_lt.mpr hdt)
  have hdvel : (densityStep P d g [p0] 0).velocity = Vec3.zero := hvel
  have hdcell : (densityStep P d g [p0] 0).cellIndex = p0.cellIndex := rfl
  have hacc : (forceStep P d g ⟨0, -(49 / 5), 0⟩ sq [densityStep P d g [p0] 0]
      0).acceleration = ⟨0, -(49 / 5), 0⟩ := by
    simp only [forceStep]
    rw [show ([densityStep P d g [p0] 0].getD 0 default) =
      densityStep P d g [p0] 0 from rfl]
    rw [hdcell, hcand]
    simp [forceBody, Vec3.sub_self, hh, Vec3.ext_iff]
  have hfvel : (forceStep P d g ⟨0, -(49 / 5), 0⟩ sq [densityStep P d g [p0] 0]
      0).velocity = Vec3.zero := hvel
  have hfpos : (forceStep P d g ⟨0, -(49 / 5), 0⟩ sq [densityStep P d g [p0] 0]
      0).position = p0.position := rfl
  have hA : computeDensities P d ⟨[p0], g⟩ = ⟨[densityStep P d g [p0] 0], g⟩ := by
    simp [computeDensities, passUpdate, List.range_succ]
  have hB : computeForces P d ⟨0, -(49 / 5), 0⟩ sq
      ⟨[densityStep P d g [p0] 0], g⟩ =
      ⟨[forceStep P d g ⟨0, -(49 / 5), 0⟩ sq [densityStep P d g [p0] 0] 0],
        g⟩ := by
    simp [computeForces, passUpdate, List.range_succ]
  have hmv : moveOne oracle sq (fuel + 1) (1 / 100)
      (forceStep P d g ⟨0, -(49 / 5), 0⟩ sq [densityStep P d g [p0] 0] 0) =
      some (Vec3.add p0.position ⟨0, -(49 / 50000), 0⟩,
        ⟨0, -(49 / 500), 0⟩) := by
    simp only [moveOne, hfvel, hacc, hfpos]
    rw [runLoop_succ]
    simp only [loopStep, horacle]
    rw [Vec3.add_sub_cancel_left]
    norm_num [Vec3.add, Vec3.smul, Vec3.zero, Vec3.ext_iff]
  refine ⟨hacc, moveCommit d
    ⟨[forceStep P d g ⟨0, -(49 / 5), 0⟩ sq [densityStep P d g [p0] 0] 0], g⟩
    0 (Vec3.add p0.position ⟨0, -(49 / 50000), 0⟩) ⟨0, -(49 / 500), 0⟩,
    ?_, ?_, ?_⟩
  · simp only [animate, hclamp, hA, hB, moveParticles]
    simp only [List.length_singleton, List.range_succ, List.range_zero,
      List.nil_append, moveAll, List.getD_cons_zero, hmv]
  · simp only [moveCommit]
    split <;> simp
  · simp only [moveCommit]
    split <;> simp

/-- Witness for C8: the mass-2 particle alone in the single-cell grid, a
container with no hits, Δt = 0.01. -/
theorem C8_witness :
    ∃ s', animate cParams cDims ⟨0, -(49 / 5), 0⟩ (fun _ => none)
        (fun _ => 0) 1 (1 / 100) ⟨[cParticle 2 1], ⟨[[0]]⟩⟩ = some s' ∧
      (s'.particles.getD 0 default).velocity = ⟨0, -(49 / 500), 0⟩ ∧
      (s'.particles.getD 0 default).position =
        Vec3.add (cParticle 2 1).position ⟨0, -(49 / 50000), 0⟩ :=
  (C8_single_particle_free_fall cParams cDims (fun _ => none) (fun _ => 0) 0
    (cParticle 2 1) ⟨[[0]]⟩ rfl (by decide) (by decide) (fun _ => rfl)
    (by norm_num [cParams])).2

/-! ### Claim C9 -/
@[simp] theorem Vec3.neg_zero_vec : Vec3.neg Vec3.zero = Vec3.zero := by
  simp [Vec3.ext_iff, Vec3.neg]

/-- Negating commutes with normalization (the negated vector has the same
squared length). -/
theorem Vec3.neg_normalizedWith (sq : ℚ → ℚ) (w : Vec3) :
    Vec3.neg (Vec3.normalizedWith sq w) = Vec3.normalizedWith sq (Vec3.neg w) := by
  rw [Vec3.normalizedWith, Vec3.normalizedWith, Vec3.lengthSquared_neg]
  by_cases h : Vec3.lengthSquared w = 0
  · simp [h]
  · simp [h, Vec3.neg_divQ]

/-- The surface-evaluator accumulation loop computes exactly the
kernel-weighted mass sum (the same `rawSum` as the Density Solver) and the
three gradient components. -/
theorem surfaceBody_foldl (P : Params) (ps : List Particle) (position : Vec3)
    (cand : List Nat) : ∀ a b c e : ℚ,
    cand.foldl (surfaceBody P ps position) (a, b, c, e) =
      (a + rawSum P ps position cand,
       b + (surfaceGradient P ps position cand).x,
       c + (surfaceGradient P ps position cand).y,
       e + (surfaceGradient P ps position cand).z) := by
  induction cand with
  | nil =>
    intro a b c e
    simp [rawSum, surfaceGradient, withinRadius, vecSum]
  | cons k t ih =>
    intro a b c e
    rw [List.foldl_cons]
    by_cases hk : (Vec3.sub position (ps.getD k default).position).lengthSquared <
        P.smoothingRadius2
    · have hbody : surfaceBody P ps position (a, b, c, e) k =
          (a + densityKernel P (Vec3.sub position
              (ps.getD k default).position).lengthSquared *
            (ps.getD k default).mass,
           b + 2 * (position.x - (ps.getD k default).position.x) *
             densitykernelGradient P (Vec3.sub position
               (ps.getD k default).position).lengthSquared *
             (ps.getD k default).mass,
           c + 2 * (position.y - (ps.getD k default).position.y) *
             densitykernelGradient P (Vec3.sub position
               (ps.getD k default).position).lengthSquared *
             (ps.getD k default).mass,
           e + 2 * (position.z - (ps.getD k default).position.z) *
             densitykernelGradient P (Vec3.sub position
               (ps.getD k default).position).lengthSquared *
             (ps.getD k default).mass) := by
        simp only [surfaceBody]
        rw [if_pos hk]
      rw [hbody, ih]
      simp only [rawSum, surfaceGradient, withinRadius, r2Of,
        List.filter_cons, decide_eq_true_eq, hk, if_true, List.map_cons,
        List.sum_cons, vecSum_cons, Prod.mk.injEq, Vec3.add_x, Vec3.add_y,
        Vec3.add_z, Vec3.smul_x, Vec3.smul_y, Vec3.smul_z, Vec3.sub_x,
        Vec3.sub_y, Vec3.sub_z]
      refine ⟨by ring, by ring, by ring, by ring⟩
    · have hbody : surfaceBody P ps position (a, b, c, e) k = (a, b, c, e) := by
        simp only [surfaceBody]
        rw [if_neg hk]
      rw [hbody, ih]
      simp only [rawSum, surfaceGradient, withinRadius, List.filter_cons,
        decide_eq_true_eq, hk, if_false, List.map_cons, List.sum_cons]

/-- C9 (confirmed): `surfaceInfo` returns the scalar
`density/restDensity − (1 − a)` with `a = 0.3`, where `density` is the
kernel-weighted mass sum over the within-radius grid candidates of the query
point, and the normal `normalize(−gradient/restDensity)` with the gradient
as accumulated per axis; when no candidate lies within the radius, the
density is 0, the value is −0.7 and the normal is the zero vector. -/
theorem C9_surface_info (P : Params) (d : GridDims) (sq : ℚ → ℚ)
    (ps : List Particle) (g : Grid) (position : Vec3) :
    (surfaceInfo P d sq ps g position).1 =
      rawSum P ps position (candidates d g (d.cellIndex position)) /
        P.restDensity - (1 - 3 / 10) ∧
    (surfaceInfo P d sq ps g position).2 =
      Vec3.normalizedWith sq (Vec3.divQ
        (Vec3.neg (surfaceGradient P ps position
          (candidates d g (d.cellIndex position))))
        P.restDensity) ∧
    (withinRadius P ps position (candidates d g (d.cellIndex position)) = [] →
      (surfaceInfo P d sq ps g position).1 = -(7 / 10) ∧
      (surfaceInfo P d sq ps g position).2 = Vec3.zero) := by
  have h1 : (surfaceInfo P d sq ps g position).1 =
      rawSum P ps position (candidates d g (d.cellIndex position)) /
        P.restDensity - (1 - 3 / 10) := by
    simp only [surfaceInfo, surfaceBody_foldl, zero_add]
  have h2 : (surfaceInfo P d sq ps g position).2 =
      Vec3.normalizedWith sq (Vec3.divQ
        (Vec3.neg (surfaceGradient P ps position
          (candidates d g (d.cellIndex position))))
        P.restDensity) := by
    simp only [surfaceInfo, surfaceBody_foldl, zero_add]
    rw [show (⟨(surfaceGradient P ps position
          (candidates d g (d.cellIndex position))).x / P.restDensity,
        (surfaceGradient P ps position
          (candidates d g (d.cellIndex position))).y / P.restDensity,
        (surfaceGradient P ps position
          (candidates d g (d.cellIndex position))).z / P.restDensity⟩ : Vec3) =
      Vec3.divQ (surfaceGradient P ps position
        (candidates d g (d.cellIndex position))) P.restDensity from rfl]
    rw [Vec3.neg_normalizedWith, Vec3.neg_divQ]
  refine ⟨h1, h2, fun hempty => ⟨?_, ?_⟩⟩
  · rw [h1]
    rw [show rawSum P ps position (candidates d g (d.cellIndex position)) = 0
      from by rw [rawSum, hempty]; rfl]
    norm_num
  · rw [h2]
    rw [show surfaceGradient P ps position
        (candidates d g (d.cellIndex position)) = Vec3.zero
      from by rw [surfaceGradient, hempty]; rfl]
    simp

/-- Witness for C9: a query at the origin of an empty single-cell grid
returns value −0.7 and the zero normal. -/
theorem C9_witness :
    (surfaceInfo cParams cDims (fun _ => 0) [] ⟨[[]]⟩ Vec3.zero).1 =
      -(7 / 10) ∧
    (surfaceInfo cParams cDims (fun _ => 0) [] ⟨[[]]⟩ Vec3.zero).2 =
      Vec3.zero := by
  have h := C9_surface_info cParams cDims (fun _ => 0) [] ⟨[[]]⟩ Vec3.zero
  refine h.2.2 ?_
  norm_num [withinRadius, candidates, GridDims.neighborhood,
    GridDims.cellIndex, clampCell, axisNeighbors, Grid.cellParticles, cDims,
    Vec3.zero, min_zero]

/-- The clamped cell index always addresses one of the `nbX·nbY·nbZ`
buckets. -/
theorem cellIndex_lt (d : GridDims) (hwf : d.wf) (p : Vec3) :
    d.cellIndex p < d.nbX * d.nbY * d.nbZ := by
  obtain ⟨hx, hy, hz⟩ := hwf
  simp only [GridDims.cellIndex]
  have h1 : clampCell d.nbX ⌊(p.x - d.minX) / d.sizeX⌋ ≤ d.nbX - 1 :=
    min_le_right _ _
  have h2 : clampCell d.nbY ⌊(p.y - d.minY) / d.sizeY⌋ ≤ d.nbY - 1 :=
    min_le_right _ _
  have h3 : clampCell d.nbZ ⌊(p.z - d.minZ) / d.sizeZ⌋ ≤ d.nbZ - 1 :=
    min_le_right _ _
  have hle : clampCell d.nbX ⌊(p.x - d.minX) / d.sizeX⌋ +
      d.nbX * (clampCell d.nbY ⌊(p.y - d.minY) / d.sizeY⌋ +
        d.nbY * clampCell d.nbZ ⌊(p.z - d.minZ) / d.sizeZ⌋) ≤
      (d.nbX - 1) + d.nbX * ((d.nbY - 1) + d.nbY * (d.nbZ - 1)) :=
    Nat.add_le_add h1 (Nat.mul_le_mul_left _
      (Nat.add_le_add h2 (Nat.mul_le_mul_left _ h3)))
  refine Nat.lt_of_le_of_lt hle ?_
  obtain ⟨a, ha⟩ := Nat.exists_eq_add_of_lt hx
  obtain ⟨b, hb⟩ := Nat.exists_eq_add_of_lt hy
  obtain ⟨c, hc⟩ := Nat.exists_eq_add_of_lt hz
  rw [ha, hb, hc]
  simp only [Nat.zero_add, Nat.add_sub_cancel]
  rw [show (a + 1) * (b + 1) * (c + 1) =
    (a + (a + 1) * (b + (b + 1) * c)) + 1 by ring]
  exact Nat.lt_succ_self _

/-- Reading a bucket after setting one: the set bucket if in range, the old
bucket otherwise. -/
theorem cellParticles_set (bs : List (List Nat)) (c c' : Nat)
    (v : List Nat) :
    (Grid.mk (bs.set c v)).cellParticles c' =
      if c' = c ∧ c < bs.length then v else (Grid.mk bs).cellParticles c' := by
  simp only [Grid.cellParticles]
  exact getD_set bs c c' v

/-- Committing one particle's integration result (including the conditional
remove/add re-bucketing) re-establishes grid consistency. -/
theorem moveCommit_preserves (d : GridDims) (hwf : d.wf) (s : SimState)
    (i : Nat) (pos vel : Vec3) (hInv : gridConsistent d s)
    (hi : i < s.particles.length) :
    gridConsistent d (moveCommit d s i pos vel) := by
  obtain ⟨hlen, hall⟩ := hInv
  obtain ⟨hpc, hpb⟩ := hall i hi
  have hnew_lt : d.cellIndex pos < s.grid.buckets.length := by
    rw [hlen]; exact cellIndex_lt d hwf pos
  have hold_lt : (s.particles.getD i default).cellIndex <
      s.grid.buckets.length := by
    rw [hpc, hlen]; exact cellIndex_lt d hwf _
  by_cases hne : (s.particles.getD i default).cellIndex ≠ d.cellIndex pos
  · have hmc : moveCommit d s i pos vel =
        ⟨s.particles.set i
          { s.particles.getD i default with
            position := pos, velocity := vel,
            cellIndex := d.cellIndex pos },
         (s.grid.removeParticle (s.particles.getD i default).cellIndex
           i).addParticle (d.cellIndex pos) i⟩ := by
      simp only [moveCommit]
      rw [if_pos hne]
    rw [hmc]
    have hcp2 : ∀ c, (s.grid.removeParticle
        (s.particles.getD i default).cellIndex i).cellParticles c =
        if c = (s.particles.getD i default).cellIndex then
          (s.grid.cellParticles
            (s.particles.getD i default).cellIndex).filter (fun j => j ≠ i)
        else s.grid.cellParticles c := by
      intro c
      rw [Grid.removeParticle, cellParticles_set]
      by_cases hc : c = (s.particles.getD i default).cellIndex
      · rw [if_pos ⟨hc, hold_lt⟩, if_pos hc]
      · rw [if_neg (fun h => hc h.1), if_neg hc]
    have hlen2 : ((s.grid.removeParticle
        (s.particles.getD i default).cellIndex i)).buckets.length =
        s.grid.buckets.length := by
      simp [Grid.removeParticle]
    have hcp : ∀ c, ((s.grid.removeParticle
        (s.particles.getD i default).cellIndex i).addParticle
          (d.cellIndex pos) i).cellParticles c =
        if c = d.cellIndex pos then
          (s.grid.removeParticle
            (s.particles.getD i default).cellIndex i).cellParticles
            (d.cellIndex pos) ++ [i]
        else (s.grid.removeParticle
          (s.particles.getD i default).cellIndex i).cellParticles c := by
      intro c
      rw [Grid.addParticle, cellParticles_set]
      by_cases hc : c = d.cellIndex pos
      · rw [if_pos ⟨hc, by rw [hlen2]; exact hnew_lt⟩, if_pos hc]
      · rw [if_neg (fun h => hc h.1), if_neg hc]
    have hbuckI : ∀ c, (i ∈ ((s.grid.removeParticle
        (s.particles.getD i default).cellIndex i).addParticle
        (d.cellIndex pos) i).cellParticles c ↔ c = d.cellIndex pos) := by
      intro c
      rw [hcp c, hcp2 c, hcp2 (d.cellIndex pos)]
      by_cases hcnew : c = d.cellIndex pos
      · rw [if_pos hcnew]
        simp [hcnew, List.mem_append]
      · rw [if_neg hcnew]
        simp only [hcnew, iff_false]
        by_cases hcold : c = (s.particles.getD i default).cellIndex
        · rw [if_pos hcold]
          intro hmem
          have h2 := (List.mem_filter.mp hmem).2
          simp at h2
        · rw [if_neg hcold]
          intro hmem
          exact hcold ((hpb c).mp hmem)
    have hbuckJ : ∀ j, j ≠ i → ∀ c,
        (j ∈ ((s.grid.removeParticle
          (s.particles.getD i default).cellIndex i).addParticle
          (d.cellIndex pos) i).cellParticles c ↔
          j ∈ s.grid.cellParticles c) := by
      intro j hji c
      rw [hcp c, hcp2 c, hcp2 (d.cellIndex pos)]
      have hmem_app : ∀ b : List Nat, (j ∈ b ++ [i] ↔ j ∈ b) := fun b => by
        simp [List.mem_append, hji]
      have hfil : (j ∈ (s.grid.cellParticles
          (s.particles.getD i default).cellIndex).filter
            (fun k => k ≠ i) ↔
          j ∈ s.grid.cellParticles
            (s.particles.getD i default).cellIndex) := by
        rw [List.mem_filter]
        simp [hji]
      by_cases hcnew : c = d.cellIndex pos
      · rw [if_pos hcnew, hmem_app]
        by_cases hcold2 : d.cellIndex pos =
            (s.particles.getD i default).cellIndex
        · rw [if_pos hcold2, hfil, hcnew, hcold2]
        · rw [if_neg hcold2, hcnew]
      · rw [if_neg hcnew]
        by_cases hcold : c = (s.particles.getD i default).cellIndex
        · rw [if_pos hcold, hfil, hcold]
        · rw [if_neg hcold]
    refine ⟨?_, ?_⟩
    · simp only [Grid.addParticle]
      rw [List.length_set, hlen2, hlen]
    · intro j hj
      rw [List.length_set] at hj
      rw [getD_set]
      by_cases hji : j = i
      · rw [if_pos ⟨hji, hi⟩]
        refine ⟨rfl, ?_⟩
        intro c
        rw [hji]
        exact hbuckI c
      · rw [if_neg (fun h => hji h.1)]
        obtain ⟨hjc, hjb⟩ := hall j hj
        exact ⟨hjc, fun c => (hbuckJ j hji c).trans (hjb c)⟩
  · have heq : (s.particles.getD i default).cellIndex = d.cellIndex pos :=
      not_ne_iff.mp hne
    have hmc : moveCommit d s i pos vel =
        ⟨s.particles.set i
          { s.particles.getD i default with
            position := pos, velocity := vel },
         s.grid⟩ := by
      simp only [moveCommit]
      rw [if_neg hne]
    rw [hmc]
    refine ⟨hlen, ?_⟩
    intro j hj
    rw [List.length_set] at hj
    rw [getD_set]
    by_cases hji : j = i
    · rw [if_pos ⟨hji, hi⟩]
      refine ⟨?_, ?_⟩
      · show (s.particles.getD i default).cellIndex = d.cellIndex pos
        exact heq
      · intro c
        rw [hji]
        exact hpb c
    · rw [if_neg (fun h => hji h.1)]
      exact hall j hj

/-- The Integrator's per-particle sweep preserves grid consistency. -/
theorem moveAll_preserves (d : GridDims) (hwf : d.wf)
    (oracle : ContainerOracle) (sq : ℚ → ℚ) (fuel : Nat) (dt : ℚ) :
    ∀ (l : List Nat) (s s' : SimState), gridConsistent d s →
    (∀ i ∈ l, i < s.particles.length) →
    moveAll d oracle sq fuel dt l s = some s' → gridConsistent d s' := by
  intro l
  induction l with
  | nil =>
    intro s s' hInv _ hrun
    simp only [moveAll] at hrun
    cases hrun
    exact hInv
  | cons i rest ih =>
    intro s s' hInv hl hrun
    cases hm : moveOne oracle sq fuel dt (s.particles.getD i default) with
    | none =>
      simp only [moveAll, hm] at hrun
      exact Option.noConfusion hrun
    | some pv =>
      obtain ⟨pos, vel⟩ := pv
      simp only [moveAll, hm] at hrun
      refine ih (moveCommit d s i pos vel) s' ?_ ?_ hrun
      · exact moveCommit_preserves d hwf s i pos vel hInv
          (hl i (List.mem_cons_self i rest))
      · intro k hk
        have hlen : (moveCommit d s i pos vel).particles.length =
            s.particles.length := by
          simp only [moveCommit]
          split <;> simp
        rw [hlen]
        exact hl k (List.mem_cons_of_mem _ hk)

/-- A pass that changes neither positions nor cell indices nor the grid
preserves grid consistency. -/
theorem pass_preserves_consistency (d : GridDims)
    (step : List Particle → Nat → Particle)
    (hpos : ∀ ps j, (step ps j).position = (ps.getD j default).position)
    (hcell : ∀ ps j, (step ps j).cellIndex = (ps.getD j default).cellIndex)
    (l : List Nat) (ps : List Particle) (g : Grid)
    (h : gridConsistent d ⟨ps, g⟩) :
    gridConsistent d ⟨passUpdate step ps l, g⟩ := by
  obtain ⟨hlen, hall⟩ := h
  refine ⟨hlen, ?_⟩
  intro i hi
  rw [length_passUpdate] at hi
  have hp := getD_passUpdate_proj Particle.position step hpos l i ps
  have hc := getD_passUpdate_proj Particle.cellIndex step hcell l i ps
  obtain ⟨h1, h2⟩ := hall i hi
  refine ⟨?_, ?_⟩
  · rw [hp, hc]
    exact h1
  · intro c
    rw [hc]
    exact h2 c

theorem initPrefix_succ (P : Params) (d : GridDims) (positions : List Vec3)
    (mass : ℚ) (k : Nat) :
    initPrefix P d positions mass (k + 1) =
      initStep P d positions mass (initPrefix P d positions mass k) k := by
  rw [initPrefix, List.range_succ, List.foldl_append]
  rfl

/-- Invariants of the initialization loop after `k` iterations: sizes are
fixed, the first `k` particles are consistent and exactly bucketed, and no
unprocessed index appears in any bucket. -/
theorem initPrefix_invariant (P : Params) (d : GridDims) (hwf : d.wf)
    (positions : List Vec3) (mass : ℚ) : ∀ k, k ≤ positions.length →
    (initPrefix P d positions mass k).particles.length = positions.length ∧
    (initPrefix P d positions mass k).grid.buckets.length =
      d.nbX * d.nbY * d.nbZ ∧
    (∀ i < k,
      ((initPrefix P d positions mass k).particles.getD i default).cellIndex =
        d.cellIndex ((initPrefix P d positions mass
          k).particles.getD i default).position ∧
      ∀ c, (i ∈ (initPrefix P d positions mass k).grid.cellParticles c ↔
        c = ((initPrefix P d positions mass
          k).particles.getD i default).cellIndex)) ∧
    (∀ i, k ≤ i → ∀ c,
      i ∉ (initPrefix P d positions mass k).grid.cellParticles c) := by
  intro k
  induction k with
  | zero =>
    intro _
    refine ⟨by simp [initPrefix], by simp [initPrefix], ?_, ?_⟩
    · intro i hi
      exact absurd hi (Nat.not_lt_zero i)
    · intro i _ c
      simp only [initPrefix, List.range_zero, List.foldl_nil,
        Grid.cellParticles]
      intro hmem
      rcases Nat.lt_or_ge c (d.nbX * d.nbY * d.nbZ) with hc | hc
      · rw [List.getD_eq_getElem?_getD, List.getElem?_replicate] at hmem
        simp [hc] at hmem
      · rw [List.getD_eq_getElem?_getD,
          List.getElem?_eq_none (by simpa using hc)] at hmem
        simp at hmem
  | succ k ih =>
    intro hk1
    have hk : k ≤ positions.length := Nat.le_of_succ_le hk1
    have hklt : k < positions.length := hk1
    obtain ⟨ihlen, ihblen, ihdone, ihfresh⟩ := ih hk
    have hck_lt : d.cellIndex (positions.getD k Vec3.zero) <
        (initPrefix P d positions mass k).grid.buckets.length := by
      rw [ihblen]
      exact cellIndex_lt d hwf _
    have hstep : initPrefix P d positions mass (k + 1) =
        ⟨(initPrefix P d positions mass k).particles.set k
          { position := positions.getD k Vec3.zero
            velocity := Vec3.zero
            acceleration := Vec3.zero
            mass := mass
            density := P.restDensity
            volume := mass / P.restDensity
            pressure := 0
            cellIndex := d.cellIndex (positions.getD k Vec3.zero) },
         (initPrefix P d positions mass k).grid.addParticle
           (d.cellIndex (positions.getD k Vec3.zero)) k⟩ := by
      rw [initPrefix_succ]
      rfl
    have hbuck : ∀ c, ((initPrefix P d positions mass k).grid.addParticle
        (d.cellIndex (positions.getD k Vec3.zero)) k).cellParticles c =
        if c = d.cellIndex (positions.getD k Vec3.zero) then
          (initPrefix P d positions mass k).grid.cellParticles c ++ [k]
        else (initPrefix P d positions mass k).grid.cellParticles c := by
      intro c
      rw [Grid.addParticle, cellParticles_set]
      by_cases hc : c = d.cellIndex (positions.getD k Vec3.zero)
      · rw [if_pos ⟨hc, hck_lt⟩, if_pos hc, hc]
      · rw [if_neg (fun h => hc h.1), if_neg hc]
    rw [hstep]
    refine ⟨by simpa using ihlen, ?_, ?_, ?_⟩
    · simp only [Grid.addParticle]
      rw [List.length_set]
      exact ihblen
    · intro i hi
      rw [getD_set]
      by_cases hik : i = k
      · rw [if_pos ⟨hik, by rw [ihlen]; exact hik ▸ hklt⟩]
        refine ⟨rfl, ?_⟩
        intro c
        rw [hbuck c]
        by_cases hc : c = d.cellIndex (positions.getD k Vec3.zero)
        · subst hik
          rw [if_pos hc]
          simp [List.mem_append, hc]
        · subst hik
          rw [if_neg hc]
          simp only [hc, iff_false]
          intro hmem
          exact ihfresh i (le_refl i) c hmem
      · have hik2 : i < k := Nat.lt_of_le_of_ne (Nat.lt_succ_iff.mp hi) hik
        rw [if_neg (fun h => hik h.1)]
        obtain ⟨hic, hib⟩ := ihdone i hik2
        refine ⟨hic, ?_⟩
        intro c
        rw [hbuck c]
        by_cases hc : c = d.cellIndex (positions.getD k Vec3.zero)
        · rw [if_pos hc]
          rw [show ∀ b : List Nat, (i ∈ b ++ [k] ↔ i ∈ b) from fun b => by
            simp [List.mem_append, hik]]
          exact hib c
        · rw [if_neg hc]
          exact hib c
    · intro i hi c
      have hik : i ≠ k := fun h => by omega
      rw [hbuck c]
      by_cases hc : c = d.cellIndex (positions.getD k Vec3.zero)
      · rw [if_pos hc]
        intro hmem
        rcases List.mem_append.mp hmem with hmem2 | hmem2
        · exact ihfresh i (by omega) c hmem2
        · simp at hmem2
          exact hik hmem2
      · rw [if_neg hc]
        exact ihfresh i (by omega) c

/-- C10 (confirmed; the `Grid` class's operations are modelled from the
spec): grid consistency — every particle's stored cell index equals the grid
cell containing its current position, and its index appears in that cell's
bucket and in no other — is established by `initializeParticles` and
preserved by every simulation step: the Density and Force passes leave
positions, cell indices and buckets untouched, and the Integrator
re-establishes the invariant through its conditional remove/add
re-bucketing. -/
theorem C10_grid_consistency (P : Params) (d : GridDims) (hwf : d.wf)
    (totalVolume : ℚ) (positions : List Vec3) :
    gridConsistent d (initializeParticles P d totalVolume positions) ∧
    ∀ (gravity : Vec3) (oracle : ContainerOracle) (sq : ℚ → ℚ) (fuel : Nat)
      (deltaTime : ℚ) (s s' : SimState), gridConsistent d s →
      animate P d gravity oracle sq fuel deltaTime s = some s' →
      gridConsistent d s' := by
  constructor
  · obtain ⟨h1, h2, h3, _⟩ := initPrefix_invariant P d hwf positions
      (totalVolume * P.restDensity / (positions.length : ℚ))
      positions.length (le_refl _)
    refine ⟨h2, ?_⟩
    intro i hi
    rw [show (initializeParticles P d totalVolume positions).particles.length =
      (initPrefix P d positions
        (totalVolume * P.restDensity / (positions.length : ℚ))
        positions.length).particles.length from rfl, h1] at hi
    exact h3 i hi
  · intro gv oracle sq fuel dt s s' hInv hrun
    have h1 : gridConsistent d (computeDensities P d s) :=
      pass_preserves_consistency d (densityStep P d s.grid)
        (fun _ _ => rfl) (fun _ _ => rfl) _ s.particles s.grid hInv
    have h2 : gridConsistent d
        (computeForces P d gv sq (computeDensities P d s)) :=
      pass_preserves_consistency d
        (forceStep P d (computeDensities P d s).grid gv sq)
        (fun _ _ => rfl) (fun _ _ => rfl) _
        (computeDensities P d s).particles (computeDensities P d s).grid h1
    simp only [animate, moveParticles] at hrun
    exact moveAll_preserves d hwf oracle sq fuel _ _ _ s' h2
      (fun i hi => List.mem_range.mp hi) hrun

/-- Witness for C10: the single seeded particle of the 1×1×1 grid is
consistent, and its index sits in its own cell's bucket. -/
theorem C10_witness :
    gridConsistent cDims (initializeParticles cParams cDims 1 [Vec3.zero]) ∧
    0 ∈ (initializeParticles cParams cDims 1
        [Vec3.zero]).grid.cellParticles
      ((initializeParticles cParams cDims 1
        [Vec3.zero]).particles.getD 0 default).cellIndex := by
  have h := C10_grid_consistency cParams cDims
    ⟨by decide, by decide, by decide⟩ 1 [Vec3.zero]
  refine ⟨h.1, ?_⟩
  have hlen : 0 < (initializeParticles cParams cDims 1
      [Vec3.zero]).particles.length := by
    simp [initializeParticles, initPrefix, initStep, List.range_succ]
  exact ((h.1.2 0 hlen).2 _).mpr rfl

end SPHModel

